import Mathlib

/-!
Verification of `Publisher/publishGames.py`.

A shallow embedding of the one-shot Firestore data-synchronization script.
CSV rows are association lists of strings, Firestore documents are
association lists of `Value`s, and a run of the reconciler produces a list
of batch operations together with the rewritten games CSV and the log.
Python `KeyError` / `ValueError` propagation is modelled explicitly:
the game loop catches `KeyError` per row, everything else aborts the run.
-/

namespace Publisher

/-- Python values as they occur in this script: strings, floats (modelled as
rationals), ints, lists of strings (`answerBank`), arrays of document
references (`gameRefs`, holding ids of documents in the `games` collection),
the `SERVER_TIMESTAMP` sentinel and resolved timestamps, and `None`. -/
inductive Value where
  | none
  | str (s : String)
  | num (q : ℚ)
  | intv (n : Nat)
  | strList (xs : List String)
  | refList (xs : List String)
  | serverTimestamp
  | timestamp (t : Nat)
deriving DecidableEq, Repr

/-- A Firestore document as returned by `to_dict`: an association list from
field names to values. -/
abbrev Doc := List (String × Value)

/-- A CSV row as produced by `csv.DictReader`: an association list from
column names to strings. -/
abbrev Row := List (String × String)

/-- First-match association-list lookup. -/
def lookupA {α β : Type} [DecidableEq α] : List (α × β) → α → Option β
  | [], _ => Option.none
  | (k', v) :: rest, k => if k' = k then some v else lookupA rest k

/-- Replace the first binding of `k` if present, else append `(k, v)` at the
end — the behaviour of Python dict assignment on insertion order. -/
def setA {α β : Type} [DecidableEq α] : List (α × β) → α → β → List (α × β)
  | [], k, v => [(k, v)]
  | (k', v') :: rest, k, v =>
    if k' = k then (k, v) :: rest else (k', v') :: setA rest k v

/-- Python `dict.get(key)`: `None` for a missing key.  Since a stored
Firestore null also reads back as `None`, a missing key and an explicit
null are indistinguishable under `.get`, exactly as in the Python source. -/
def Doc.get (d : Doc) (k : String) : Value := (lookupA d k).getD Value.none

/-- `row.get(key)` on a CSV row. -/
def Row.get? (r : Row) (k : String) : Option String := lookupA r k

/-- Python exceptions raised by the script: `KeyError` from `row[key]` and
`ValueError` from `float(...)`. -/
inductive PyErr where
  | keyError (k : String)
  | valueError
deriving DecidableEq, Repr

deriving instance DecidableEq for Except

/-- `row[key]`: raises `KeyError` when the key is missing. -/
def Row.item (r : Row) (k : String) : Except PyErr String :=
  match lookupA r k with
  | some v => Except.ok v
  | Option.none => Except.error (PyErr.keyError k)

/-- `row[key] = v`: Python dict assignment. -/
def Row.set (r : Row) (k v : String) : Row := setA r k v

/-- Python truthiness of `row.get('id')`: falsy when missing or empty. -/
def pyFalsy : Option String → Bool
  | Option.none => true
  | some s => s = ""

/-- Python `str.strip()` on a character list: whitespace removed from both
ends. -/
def trimChars (cs : List Char) : List Char :=
  ((cs.dropWhile Char.isWhitespace).reverse.dropWhile Char.isWhitespace).reverse

/-- Python `str.split(c)` on a character list, with an accumulator for the
current chunk; `splitChars c cs []` yields the chunks between occurrences
of `c` (so the empty string yields `[[]]`, as in Python). -/
def splitChars (c : Char) : List Char → List Char → List (List Char)
  | [], acc => [acc.reverse]
  | x :: xs, acc =>
    if x = c then acc.reverse :: splitChars c xs []
    else splitChars c xs (x :: acc)

/-- The numeric value of a digit string. -/
def digitsToNat (cs : List Char) : Nat :=
  cs.foldl (fun n c => n * 10 + (c.toNat - '0'.toNat)) 0

/-- Python `str.isdigit()` (restricted to ASCII digits): nonempty and all
characters are digits. -/
def pyIsDigit (s : String) : Bool :=
  decide (s.data ≠ []) && s.data.all Char.isDigit

/-- Python `int(s)` on a digit string (the only way the script calls it). -/
def pyInt (s : String) : Nat := digitsToNat s.data

/-- Python `float(s)`, modelled for unsigned decimal literals (the only
shape a time-limit column carries): surrounding whitespace stripped,
digits with an optional fractional part; anything else raises
`ValueError` (signalled here by `Option.none`). -/
def pyFloat? (s : String) : Option ℚ :=
  let cs := trimChars s.data
  match splitChars '.' cs [] with
  | [ip] =>
    if decide (ip ≠ []) && ip.all Char.isDigit then
      some (mkRat (digitsToNat ip) 1)
    else Option.none
  | [ip, fp] =>
    if (ip.all Char.isDigit && fp.all Char.isDigit) && decide (ip ++ fp ≠ []) then
      some (mkRat (digitsToNat (ip ++ fp)) (10 ^ fp.length))
    else Option.none
  | _ => Option.none

/-- An optional string as a Python value. -/
def optStr : Option String → Value
  | Option.none => Value.none
  | some s => Value.str s

/-- An optional float as a Python value. -/
def optNum : Option ℚ → Value
  | Option.none => Value.none
  | some q => Value.num q

/-- An optional string list as a Python value. -/
def optStrList : Option (List String) → Value
  | Option.none => Value.none
  | some xs => Value.strList xs

/-- The in-memory Firestore state the script reads from and commits to:
`gameModes/<id>`, `gameModes/<gmId>/levels/<lvlId>`, and `games/<id>`. -/
structure Store where
  gameModes : List (String × Doc)
  levels : List ((String × String) × Doc)
  games : List (String × Doc)
deriving DecidableEq, Repr

/-- One write accumulated in the Firestore batch.  `set` overwrites a
document, `update` merges fields into an existing document,
`unionGameRefs` is `batch.update(level_ref, \x7b'gameRefs': ArrayUnion([ref])\x7d)`. -/
inductive BatchOp where
  | setGameMode (id : String) (data : Doc)
  | updateGameMode (id : String) (data : Doc)
  | setLevel (gameModeId levelId : String) (data : Doc)
  | updateLevel (gameModeId levelId : String) (data : Doc)
  | setGame (id : String) (data : Doc)
  | updateGame (id : String) (data : Doc)
  | unionGameRefs (gameModeId levelId : String) (refs : List String)
deriving DecidableEq, Repr

/-- `fetch_existing_games`: snapshot of the `games` collection keyed by id. -/
def fetch_existing_games (db : Store) : List (String × Doc) := db.games

/-- The fixed key list of `has_game_changed`. -/
def keys_to_check : List String :=
  ["description", "instructions", "timeLimit", "gameModeId", "levelId",
   "letterPosition", "targetLetter", "answerBank"]

/-- `has_game_changed(existing_game, new_game_data)`: true iff some key in
the fixed list reads differently from the two dicts. -/
def has_game_changed (existing_game new_game_data : Doc) : Bool :=
  keys_to_check.any fun k =>
    decide (existing_game.get k ≠ new_game_data.get k)

/-- `build_game_data(game, game_mode_id, level_id)`.  Field accesses and the
`float` conversion raise in the source order: `name`, `instructions`,
`timeLimit` (KeyError then ValueError), `answerBank`. -/
def build_game_data (game : Row) (game_mode_id level_id : String) :
    Except PyErr Doc := do
  let name ← game.item "name"
  let description := game.get? "description"
  let instructions ← game.item "instructions"
  let tlRaw ← game.item "timeLimit"
  let timeLimit ←
    if tlRaw = "" then pure Value.none
    else match pyFloat? tlRaw with
      | some q => pure (Value.num q)
      | Option.none => Except.error PyErr.valueError
  let letterPosition := game.get? "letterPosition"
  let targetLetter := game.get? "targetLetter"
  let abRaw ← game.item "answerBank"
  let answerBank :=
    if abRaw = "" then Value.none
    else Value.strList
      ((splitChars ',' abRaw.data []).map fun cs => String.mk (trimChars cs))
  pure
    [("name", Value.str name),
     ("description", optStr description),
     ("instructions", Value.str instructions),
     ("timeLimit", timeLimit),
     ("gameModeId", Value.str game_mode_id),
     ("levelId", Value.str level_id),
     ("letterPosition", optStr letterPosition),
     ("targetLetter", optStr targetLetter),
     ("answerBank", answerBank)]

/-- One iteration of the structure loop (source lines 60–88).  Not wrapped
in any `try`: a `KeyError` here propagates and aborts the whole run. -/
def process_structure_row (db : Store) (structure_row : Row) :
    Except PyErr (List BatchOp × List String) := do
  let game_mode_id ← structure_row.item "id"
  let level_id ← structure_row.item "levelId"
  let name ← structure_row.item "name"
  let description ← structure_row.item "description"
  let game_mode_data : Doc :=
    [("name", Value.str name), ("description", Value.str description)]
  let modeStep : List BatchOp × List String :=
    if (lookupA db.gameModes game_mode_id).isSome then
      ([BatchOp.updateGameMode game_mode_id game_mode_data], [])
    else
      ([BatchOp.setGameMode game_mode_id game_mode_data],
       ["Creating gameMode: " ++ game_mode_id])
  let levelName ← structure_row.item "levelName"
  let levelDescription ← structure_row.item "levelDescription"
  let sugRaw ← structure_row.item "levelSuggestedTimeLimit"
  let level_data : Doc :=
    [("name", Value.str levelName),
     ("description", Value.str levelDescription),
     ("sugTimeLimit",
      if pyIsDigit sugRaw then Value.intv (pyInt sugRaw) else Value.none)]
  let levelStep : List BatchOp × List String :=
    if (lookupA db.levels (game_mode_id, level_id)).isSome then
      ([BatchOp.updateLevel game_mode_id level_id level_data], [])
    else
      let existing_level : Doc :=
        (lookupA db.levels (game_mode_id, level_id)).getD []
      let gameRefs : Value :=
        match lookupA existing_level "gameRefs" with
        | some v => v
        | Option.none => Value.refList []
      ([BatchOp.setLevel game_mode_id level_id
          (level_data ++ [("gameRefs", gameRefs)])],
       ["Creating level: " ++ level_id ++ " under gameMode " ++ game_mode_id])
  pure (modeStep.1 ++ levelStep.1, modeStep.2 ++ levelStep.2)

/-- The structure pass: all structure rows in order; any error aborts. -/
def structure_pass (db : Store) : List Row →
    Except PyErr (List BatchOp × List String)
  | [] => Except.ok ([], [])
  | r :: rest => do
    let (ops, log) ← process_structure_row db r
    let (ops', log') ← structure_pass db rest
    pure (ops ++ ops', log ++ log')

/-- One iteration of the game loop body inside the `try` (source lines
94–132).  Returns the batch ops, the row as appended to
`updated_games_csv`, the log lines, and the next fresh-id counter.
`gen n` stands for the id of the `n`-th `db.collection('games').document()`
reference created in this run. -/
def process_game_row (existing_games : List (String × Doc)) (gen : Nat → String)
    (game : Row) (n : Nat) :
    Except PyErr (List BatchOp × Row × List String × Nat) := do
  let game_id := game.get? "id"
  let level_id ← game.item "levelId"
  let game_mode_id ← game.item "gameModeId"
  if pyFalsy game_id then
    let new_id := gen n
    let gd ← build_game_data game game_mode_id level_id
    let game_data := gd ++
      [("createdAt", Value.serverTimestamp),
       ("updatedAt", Value.serverTimestamp)]
    pure ([BatchOp.setGame new_id game_data,
           BatchOp.unionGameRefs game_mode_id level_id [new_id]],
          game.set "id" new_id,
          ["New game created and linked to level: " ++ new_id],
          n + 1)
  else
    let gid := game_id.getD ""
    match lookupA existing_games gid with
    | some existing_game =>
      if existing_game ≠ [] then do
        let gd ← build_game_data game game_mode_id level_id
        if has_game_changed existing_game gd then
          pure ([BatchOp.updateGame gid
                  (gd ++ [("updatedAt", Value.serverTimestamp)])],
                game, ["Game updated: " ++ gid], n)
        else
          pure ([], game, ["No changes detected for game: " ++ gid], n)
      else
        pure ([], game,
              ["Game ID " ++ gid ++ " not found in Firestore. Skipping."], n)
    | Option.none =>
      pure ([], game,
            ["Game ID " ++ gid ++ " not found in Firestore. Skipping."], n)

/-- The game loop (source lines 93–135): each row body runs inside
`try ... except KeyError`, so a `KeyError` skips the row with a warning and
the loop continues; a `ValueError` from `float` is not caught and aborts. -/
def game_pass (existing_games : List (String × Doc)) (gen : Nat → String) :
    List Row → Nat → Except PyErr (List BatchOp × List Row × List String)
  | [], _ => Except.ok ([], [], [])
  | game :: rest, n =>
    match process_game_row existing_games gen game n with
    | Except.ok (ops, row', log, n') =>
      match game_pass existing_games gen rest n' with
      | Except.ok (ops', rows', log') =>
        Except.ok (ops ++ ops', row' :: rows', log ++ log')
      | Except.error e => Except.error e
    | Except.error (PyErr.keyError k) =>
      match game_pass existing_games gen rest n with
      | Except.ok (ops', rows', log') =>
        Except.ok (ops', rows',
          ("Missing required field " ++ k ++ " in row. Skipping.") :: log')
      | Except.error e => Except.error e
    | Except.error PyErr.valueError => Except.error PyErr.valueError

/-- Outcome of one run of `upload_games_from_csv` up to the commit: either
an early return on empty input, an uncaught exception, or the accumulated
batch, the rewritten games CSV, and the log. -/
inductive RunResult where
  | emptyInput
  | failed (e : PyErr)
  | ok (ops : List BatchOp) (rows : List Row) (log : List String)
deriving DecidableEq, Repr

/-- `upload_games_from_csv`: the whole run against store `db`, producing
the batch to commit and the rows written back to the games CSV. -/
def upload_games_from_csv (db : Store) (games_csv structure_csv : List Row)
    (gen : Nat → String) : RunResult :=
  if games_csv = [] then RunResult.emptyInput
  else if structure_csv = [] then RunResult.emptyInput
  else
    match structure_pass db structure_csv with
    | Except.error e => RunResult.failed e
    | Except.ok (structOps, structLog) =>
      match game_pass (fetch_existing_games db) gen games_csv 0 with
      | Except.error e => RunResult.failed e
      | Except.ok (gameOps, rows, gameLog) =>
        RunResult.ok (structOps ++ gameOps) rows (structLog ++ gameLog)

/-- Resolve the `SERVER_TIMESTAMP` sentinel at commit time `t`. -/
def resolveTS (t : Nat) : Value → Value
  | Value.serverTimestamp => Value.timestamp t
  | v => v

/-- Resolve all sentinels in a document at commit time `t`. -/
def resolveDoc (t : Nat) (d : Doc) : Doc :=
  d.map fun kv => (kv.1, resolveTS t kv.2)

/-- Merge update data into an existing document, field by field. -/
def mergeDoc (old data : Doc) : Doc :=
  data.foldl (fun d kv => setA d kv.1 kv.2) old

/-- Firestore `ArrayUnion`: append each element not already present, in
order, to the end of the array. -/
def arrayUnion (old adds : List String) : List String :=
  adds.foldl (fun acc x => if x ∈ acc then acc else acc ++ [x]) old

/-- Apply one batch write to the store at commit time `t`.  An `update` of
a document that does not exist (also not created earlier in the same
batch) fails, failing the whole commit. -/
def applyOp (t : Nat) (s : Store) : BatchOp → Option Store
  | BatchOp.setGameMode id data =>
    some { s with gameModes := setA s.gameModes id (resolveDoc t data) }
  | BatchOp.updateGameMode id data =>
    match lookupA s.gameModes id with
    | some old =>
      some { s with gameModes := setA s.gameModes id (mergeDoc old (resolveDoc t data)) }
    | Option.none => Option.none
  | BatchOp.setLevel gm lvl data =>
    some { s with levels := setA s.levels (gm, lvl) (resolveDoc t data) }
  | BatchOp.updateLevel gm lvl data =>
    match lookupA s.levels (gm, lvl) with
    | some old =>
      some { s with levels := setA s.levels (gm, lvl) (mergeDoc old (resolveDoc t data)) }
    | Option.none => Option.none
  | BatchOp.setGame id data =>
    some { s with games := setA s.games id (resolveDoc t data) }
  | BatchOp.updateGame id data =>
    match lookupA s.games id with
    | some old =>
      some { s with games := setA s.games id (mergeDoc old (resolveDoc t data)) }
    | Option.none => Option.none
  | BatchOp.unionGameRefs gm lvl refs =>
    match lookupA s.levels (gm, lvl) with
    | some old =>
      let oldRefs : List String :=
        match old.get "gameRefs" with
        | Value.refList xs => xs
        | _ => []
      let newLevel := setA old "gameRefs" (Value.refList (arrayUnion oldRefs refs))
      some { s with levels := setA s.levels (gm, lvl) newLevel }
    | Option.none => Option.none

/-- `batch.commit()`: apply all writes in order, atomically — any failing
write fails the whole commit. -/
def commit (t : Nat) : Store → List BatchOp → Option Store
  | s, [] => some s
  | s, op :: rest =>
    match applyOp t s op with
    | some s' => commit t s' rest
    | Option.none => Option.none

end Publisher

namespace Publisher

/-! ## Concrete example data shared by several claims -/

/-- A deterministic stand-in for the ids handed out by
`db.collection('games').document()`. -/
def exGen : Nat → String := fun n => "newid" ++ toString n

/-- The games.csv row of the spec's worked example. -/
def exRowC9 : Row :=
  [("id", ""), ("name", "Find A"), ("instructions", "tap A"),
   ("timeLimit", "30"), ("gameModeId", "gm1"), ("levelId", "lvl1"),
   ("answerBank", "A,a")]

/-- A well-formed structure row for gameMode `gm1` / level `lvl1`. -/
def exStructRow : Row :=
  [("id", "gm1"), ("name", "Mode"), ("description", "d"),
   ("levelId", "lvl1"), ("levelName", "L"), ("levelDescription", "ld"),
   ("levelSuggestedTimeLimit", "60")]

/-- A store already holding gameMode `gm1` and level `lvl1` (empty
`gameRefs`) and no games. -/
def exStore : Store :=
  { gameModes := [("gm1", [("name", Value.str "Mode"), ("description", Value.str "d")])],
    levels := [(("gm1", "lvl1"),
      [("name", Value.str "L"), ("description", Value.str "ld"),
       ("sugTimeLimit", Value.none), ("gameRefs", Value.refList [])])],
    games := [] }

/-- The game document the worked example builds. -/
def exGameDoc : Doc :=
  [("name", Value.str "Find A"), ("description", Value.none),
   ("instructions", Value.str "tap A"), ("timeLimit", Value.num 30),
   ("gameModeId", Value.str "gm1"), ("levelId", Value.str "lvl1"),
   ("letterPosition", Value.none), ("targetLetter", Value.none),
   ("answerBank", Value.strList ["A", "a"])]

/-- The full batch the worked example accumulates. -/
def exOpsC9 : List BatchOp :=
  [BatchOp.updateGameMode "gm1"
     [("name", Value.str "Mode"), ("description", Value.str "d")],
   BatchOp.updateLevel "gm1" "lvl1"
     [("name", Value.str "L"), ("description", Value.str "ld"),
      ("sugTimeLimit", Value.intv 60)],
   BatchOp.setGame "newid0"
     (exGameDoc ++
       [("createdAt", Value.serverTimestamp),
        ("updatedAt", Value.serverTimestamp)]),
   BatchOp.unionGameRefs "gm1" "lvl1" ["newid0"]]

/-- A games.csv row carrying an already-assigned id `g1`. -/
def exRowG1 : Row :=
  [("id", "g1"), ("name", "G"), ("description", "new"), ("instructions", "i"),
   ("timeLimit", ""), ("gameModeId", "gm1"), ("levelId", "lvl1"), ("answerBank", "")]

/-- The document `build_game_data` produces for `exRowG1`. -/
def exGdG1 : Doc :=
  [("name", Value.str "G"), ("description", Value.str "new"),
   ("instructions", Value.str "i"), ("timeLimit", Value.none),
   ("gameModeId", Value.str "gm1"), ("levelId", Value.str "lvl1"),
   ("letterPosition", Value.none), ("targetLetter", Value.none),
   ("answerBank", Value.none)]

/-- A stored version of game `g1` whose `description` reads `"old"`. -/
def exStoredG1 : Doc :=
  [("name", Value.str "G"), ("description", Value.str "old"),
   ("instructions", Value.str "i"), ("timeLimit", Value.none),
   ("gameModeId", Value.str "gm1"), ("levelId", Value.str "lvl1"),
   ("letterPosition", Value.none), ("targetLetter", Value.none),
   ("answerBank", Value.none)]

/-- The `level_data` dict the structure pass builds (source lines 77–81). -/
def level_data_of (levelName levelDescription sugRaw : String) : Doc :=
  [("name", Value.str levelName), ("description", Value.str levelDescription),
   ("sugTimeLimit",
    if pyIsDigit sugRaw then Value.intv (pyInt sugRaw) else Value.none)]

/-- The level document stored in `exStore` for `gm1`/`lvl1`. -/
def exLvlDoc : Doc :=
  [("name", Value.str "L"), ("description", Value.str "ld"),
   ("sugTimeLimit", Value.none), ("gameRefs", Value.refList [])]

/-- Does a game document declare `(gm, lvl)` as its parent pair? -/
def gameDeclares (d : Doc) (gm lvl : String) : Bool :=
  decide (d.get "gameModeId" = Value.str gm) &&
  decide (d.get "levelId" = Value.str lvl)

/-- The `gameRefs` array of a level document (empty when absent). -/
def levelGameRefs (d : Doc) : List String :=
  match d.get "gameRefs" with
  | Value.refList xs => xs
  | _ => []

/-- The spec's Level/Game reference invariant: every level's `gameRefs`
holds exactly one reference per game that declares that level as parent,
and no reference to any other game. -/
def levelRefsInv (s : Store) : Bool :=
  s.levels.all fun kv =>
    s.games.all fun g =>
      (levelGameRefs kv.2).count g.1 =
        (if gameDeclares g.2 kv.1.1 kv.1.2 then 1 else 0)

/-- A full run followed by the batch commit at time `t`. -/
def runCommit (db : Store) (games_csv structure_csv : List Row)
    (gen : Nat → String) (t : Nat) : Option Store :=
  match upload_games_from_csv db games_csv structure_csv gen with
  | RunResult.ok ops _ _ => commit t db ops
  | _ => Option.none

/-- A stored game `g1` whose parent level is `lvl1`. -/
def exGameG1Lvl1 : Doc :=
  [("name", Value.str "G"), ("description", Value.none),
   ("instructions", Value.str "i"), ("timeLimit", Value.none),
   ("gameModeId", Value.str "gm1"), ("levelId", Value.str "lvl1"),
   ("letterPosition", Value.none), ("targetLetter", Value.none),
   ("answerBank", Value.none)]

/-- A store satisfying the reference invariant: `lvl1` holds the single
reference to `g1`, `lvl2` holds none. -/
def exStoreC7 : Store :=
  { gameModes := [("gm1", [("name", Value.str "Mode"), ("description", Value.str "d")])],
    levels := [(("gm1", "lvl1"),
      [("name", Value.str "L"), ("description", Value.str "ld"),
       ("sugTimeLimit", Value.none), ("gameRefs", Value.refList ["g1"])]),
      (("gm1", "lvl2"),
      [("name", Value.str "L2"), ("description", Value.str "ld2"),
       ("sugTimeLimit", Value.none), ("gameRefs", Value.refList [])])],
    games := [("g1", exGameG1Lvl1)] }

/-- A games.csv row moving `g1` from `lvl1` to `lvl2`. -/
def exRowMoveG1 : Row :=
  [("id", "g1"), ("name", "G"), ("instructions", "i"), ("timeLimit", ""),
   ("gameModeId", "gm1"), ("levelId", "lvl2"), ("answerBank", "")]

/-- A duplicate-id variant of `exRowG1`: same game id `g1` but with the
stored (`"old"`) description. -/
def exRowDupB : Row :=
  [("id", "g1"), ("name", "G"), ("description", "old"), ("instructions", "i"),
   ("timeLimit", ""), ("gameModeId", "gm1"), ("levelId", "lvl1"), ("answerBank", "")]

/-- A store holding game `g1` with description `"old"`. -/
def exStoreDup : Store :=
  { gameModes := [("gm1", [("name", Value.str "Mode"), ("description", Value.str "d")])],
    levels := [(("gm1", "lvl1"),
      [("name", Value.str "L"), ("description", Value.str "ld"),
       ("sugTimeLimit", Value.none), ("gameRefs", Value.refList [])])],
    games := [("g1", exStoredG1)] }

/-- The batch of the first duplicate-id run. -/
def exOpsDup1 : List BatchOp :=
  [BatchOp.updateGameMode "gm1"
     [("name", Value.str "Mode"), ("description", Value.str "d")],
   BatchOp.updateLevel "gm1" "lvl1"
     [("name", Value.str "L"), ("description", Value.str "ld"),
      ("sugTimeLimit", Value.intv 60)],
   BatchOp.updateGame "g1" (exGdG1 ++ [("updatedAt", Value.serverTimestamp)])]

/-- `exStoreDup` after committing `exOpsDup1` at time 5. -/
def exStoreDup2 : Store :=
  { gameModes := [("gm1", [("name", Value.str "Mode"), ("description", Value.str "d")])],
    levels := [(("gm1", "lvl1"),
      [("name", Value.str "L"), ("description", Value.str "ld"),
       ("sugTimeLimit", Value.intv 60), ("gameRefs", Value.refList [])])],
    games := [("g1", exGdG1 ++ [("updatedAt", Value.timestamp 5)])] }

/-- The batch of the second duplicate-id run: it updates `g1` again. -/
def exOpsDup2 : List BatchOp :=
  [BatchOp.updateGameMode "gm1"
     [("name", Value.str "Mode"), ("description", Value.str "d")],
   BatchOp.updateLevel "gm1" "lvl1"
     [("name", Value.str "L"), ("description", Value.str "ld"),
      ("sugTimeLimit", Value.intv 60)],
   BatchOp.updateGame "g1" (exStoredG1 ++ [("updatedAt", Value.serverTimestamp)])]

/-- `exStore` after committing the worked-example batch `exOpsC9` at time 5. -/
def exStoreC9After : Store :=
  { gameModes := [("gm1", [("name", Value.str "Mode"), ("description", Value.str "d")])],
    levels := [(("gm1", "lvl1"),
      [("name", Value.str "L"), ("description", Value.str "ld"),
       ("sugTimeLimit", Value.intv 60), ("gameRefs", Value.refList ["newid0"])])],
    games := [("newid0",
      exGameDoc ++ [("createdAt", Value.timestamp 5), ("updatedAt", Value.timestamp 5)])] }

/-- The batch of the second worked-example run: structure updates only. -/
def exOpsRun2C9 : List BatchOp :=
  [BatchOp.updateGameMode "gm1"
     [("name", Value.str "Mode"), ("description", Value.str "d")],
   BatchOp.updateLevel "gm1" "lvl1"
     [("name", Value.str "L"), ("description", Value.str "ld"),
      ("sugTimeLimit", Value.intv 60)]]

/-! Further concrete example data used by the claims below. -/

/-! ## Helper lemmas -/

theorem lookupA_setA {β : Type} (l : List (String × β)) (k k' : String) (v : β) :
    lookupA (setA l k v) k' = if k = k' then some v else lookupA l k' := by
  induction l with
  | nil => simp [setA, lookupA]
  | cons kv rest ih =>
    obtain ⟨k0, v0⟩ := kv
    simp only [setA]
    by_cases h0 : k0 = k
    · subst h0
      by_cases h1 : k0 = k'
      · subst h1
        simp [lookupA]
      · simp [lookupA, h1]
    · rw [if_neg h0]
      by_cases h1 : k0 = k'
      · subst h1
        have hkk : ¬ k = k0 := fun hh => h0 hh.symm
        simp [lookupA, hkk]
      · simp only [lookupA, if_neg h1, ih]

theorem Doc.get_nil (k : String) : Doc.get [] k = Value.none := rfl

theorem Row.get?_set_self (r : Row) (k v : String) :
    (r.set k v).get? k = some v := by
  simp [Row.get?, Row.set, lookupA_setA]

theorem Row.get?_set_ne (r : Row) (k k' v : String) (h : ¬ k = k') :
    (r.set k v).get? k' = r.get? k' := by
  simp [Row.get?, Row.set, lookupA_setA, h]

theorem Row.item_set_ne (r : Row) (k k' v : String) (h : ¬ k = k') :
    (r.set k v).item k' = r.item k' := by
  have hg : (r.set k v).get? k' = r.get? k' := Row.get?_set_ne r k k' v h
  simp only [Row.get?] at hg
  simp [Row.item, hg]

theorem process_game_row_create (existing_games : List (String × Doc))
    (gen : Nat → String) (game : Row) (n : Nat) (lvl gm : String) (gd : Doc)
    (hfalsy : pyFalsy (game.get? "id") = true)
    (hlvl : game.item "levelId" = Except.ok lvl)
    (hgm : game.item "gameModeId" = Except.ok gm)
    (hbuild : build_game_data game gm lvl = Except.ok gd) :
    process_game_row existing_games gen game n =
      Except.ok
        ([BatchOp.setGame (gen n)
            (gd ++ [("createdAt", Value.serverTimestamp),
                    ("updatedAt", Value.serverTimestamp)]),
          BatchOp.unionGameRefs gm lvl [gen n]],
         game.set "id" (gen n),
         ["New game created and linked to level: " ++ gen n], n + 1) := by
  simp only [process_game_row, hlvl, hgm, hfalsy, if_true]
  simp only [bind, Except.bind, hbuild]
  rfl

theorem process_game_row_not_found (existing_games : List (String × Doc))
    (gen : Nat → String) (game : Row) (n : Nat) (gid lvl gm : String)
    (hid : game.get? "id" = some gid) (hne : gid ≠ "")
    (hlvl : game.item "levelId" = Except.ok lvl)
    (hgm : game.item "gameModeId" = Except.ok gm)
    (habsent : lookupA existing_games gid = Option.none) :
    process_game_row existing_games gen game n =
      Except.ok ([], game,
        ["Game ID " ++ gid ++ " not found in Firestore. Skipping."], n) := by
  simp only [process_game_row, hid, hlvl, hgm, pyFalsy, hne, decide_False,
    Bool.false_eq_true, if_false]
  simp only [bind, Except.bind]
  split
  next eg heq =>
    rw [Option.getD_some, habsent] at heq
    exact absurd heq (by simp)
  next heq =>
    rfl

theorem exBindOk {α β : Type} (a : α) (f : α → Except PyErr β) :
    (Except.ok a >>= f) = f a := rfl

theorem exBindErr {α β : Type} (e : PyErr) (f : α → Except PyErr β) :
    ((Except.error e : Except PyErr α) >>= f) = Except.error e := rfl

theorem exPure {α : Type} (a : α) : (pure a : Except PyErr α) = Except.ok a := rfl

theorem has_game_changed_eq_false_iff (e g : Doc) :
    has_game_changed e g = false ↔ ∀ k ∈ keys_to_check, e.get k = g.get k := by
  simp [has_game_changed, List.any_eq_false]

theorem build_game_data_shape (game : Row) (gm lvl : String) (gd : Doc)
    (h : build_game_data game gm lvl = Except.ok gd) :
    ∃ (nm ins : String) (tl ab : Value),
      game.item "name" = Except.ok nm ∧
      game.item "instructions" = Except.ok ins ∧
      (tl = Value.none ∨ ∃ q, tl = Value.num q) ∧
      (ab = Value.none ∨ ∃ xs, ab = Value.strList xs) ∧
      gd = [("name", Value.str nm),
            ("description", optStr (game.get? "description")),
            ("instructions", Value.str ins),
            ("timeLimit", tl),
            ("gameModeId", Value.str gm),
            ("levelId", Value.str lvl),
            ("letterPosition", optStr (game.get? "letterPosition")),
            ("targetLetter", optStr (game.get? "targetLetter")),
            ("answerBank", ab)] := by
  cases hn : game.item "name" with
  | error e =>
    simp only [build_game_data, hn, exBindErr] at h
    exact Except.noConfusion h
  | ok nm =>
  cases hi : game.item "instructions" with
  | error e =>
    simp only [build_game_data, hn, hi, exBindOk, exBindErr] at h
    exact Except.noConfusion h
  | ok ins =>
  cases ht : game.item "timeLimit" with
  | error e =>
    simp only [build_game_data, hn, hi, ht, exBindOk, exBindErr] at h
    exact Except.noConfusion h
  | ok tlRaw =>
  cases ha : game.item "answerBank" with
  | error e =>
    simp only [build_game_data, hn, hi, ht, ha, exBindOk, exBindErr, exPure] at h
    by_cases htl : tlRaw = ""
    · rw [if_pos htl] at h
      exact Except.noConfusion h
    · rw [if_neg htl] at h
      cases hf : pyFloat? tlRaw with
      | none => rw [hf] at h; exact Except.noConfusion h
      | some q => rw [hf] at h; exact Except.noConfusion h
  | ok abRaw =>
  simp only [build_game_data, hn, hi, ht, ha, exBindOk, exBindErr, exPure] at h
  by_cases htl : tlRaw = ""
  · rw [if_pos htl] at h
    injection h with h'
    refine ⟨nm, ins, Value.none, _, rfl, rfl, Or.inl rfl, ?_, h'.symm⟩
    by_cases hab : abRaw = ""
    · simp [hab]
    · simp only [if_neg hab]
      exact Or.inr ⟨_, rfl⟩
  · rw [if_neg htl] at h
    cases hf : pyFloat? tlRaw with
    | none =>
      simp only [hf, exBindErr] at h
      exact Except.noConfusion h
    | some q =>
      simp only [hf, exBindOk, exPure] at h
      injection h with h'
      refine ⟨nm, ins, Value.num q, _, rfl, rfl, Or.inr ⟨q, rfl⟩, ?_, h'.symm⟩
      by_cases hab : abRaw = ""
      · simp [hab]
      · simp only [if_neg hab]
        exact Or.inr ⟨_, rfl⟩

theorem process_game_row_found (existing_games : List (String × Doc))
    (gen : Nat → String) (game : Row) (n : Nat) (gid lvl gm : String) (egd gd : Doc)
    (hid : game.get? "id" = some gid) (hne : gid ≠ "")
    (hlvl : game.item "levelId" = Except.ok lvl)
    (hgm : game.item "gameModeId" = Except.ok gm)
    (hfound : lookupA existing_games gid = some egd) (hnonempty : egd ≠ [])
    (hbuild : build_game_data game gm lvl = Except.ok gd) :
    process_game_row existing_games gen game n =
      Except.ok
        (if has_game_changed egd gd then
           ([BatchOp.updateGame gid (gd ++ [("updatedAt", Value.serverTimestamp)])],
            game, ["Game updated: " ++ gid], n)
         else ([], game, ["No changes detected for game: " ++ gid], n)) := by
  simp only [process_game_row, hid, hlvl, hgm, hfound, hbuild, pyFalsy, hne,
    decide_False, Bool.false_eq_true, if_false]
  simp only [bind, Except.bind, hbuild]
  split
  next eg heq =>
    rw [Option.getD_some, hfound] at heq
    injection heq with h
    subst h
    simp only [Option.getD_some]
    rw [if_pos hnonempty]
    split <;> rfl
  next heq =>
    rw [Option.getD_some, hfound] at heq
    exact absurd heq (by simp)


theorem arrayUnion_single_mem (old : List String) (x : String) (h : x ∈ old) :
    arrayUnion old [x] = old := by
  simp [arrayUnion, h]

theorem arrayUnion_single_not_mem (old : List String) (x : String) (h : x ∉ old) :
    arrayUnion old [x] = old ++ [x] := by
  simp [arrayUnion, h]

theorem process_game_row_id_present_ops (existing_games : List (String × Doc))
    (gen : Nat → String) (game : Row) (n : Nat) (gid : String)
    (hid : game.get? "id" = some gid) (hne : gid ≠ "")
    (ops : List BatchOp) (row' : Row) (log : List String) (n' : Nat)
    (h : process_game_row existing_games gen game n = Except.ok (ops, row', log, n')) :
    (ops = [] ∨ ∃ d, ops = [BatchOp.updateGame gid d]) ∧ row' = game ∧ n' = n := by
  simp only [process_game_row, hid, pyFalsy, hne, decide_False, Bool.false_eq_true,
    if_false, Option.getD_some] at h
  cases hlvl : game.item "levelId" with
  | error e =>
    rw [hlvl, exBindErr] at h
    exact Except.noConfusion h
  | ok lvl =>
  rw [hlvl, exBindOk] at h
  cases hgm : game.item "gameModeId" with
  | error e =>
    rw [hgm, exBindErr] at h
    exact Except.noConfusion h
  | ok gm =>
  rw [hgm, exBindOk] at h
  cases hlk : lookupA existing_games gid with
  | none =>
    simp only [hlk] at h
    injection h with h'
    simp only [Prod.mk.injEq] at h'
    obtain ⟨h1, h2, h3, h4⟩ := h'
    exact ⟨Or.inl h1.symm, h2.symm, h4.symm⟩
  | some eg =>
    simp only [hlk] at h
    by_cases heg : eg = []
    · rw [if_neg (fun hh => hh heg)] at h
      injection h with h'
      simp only [Prod.mk.injEq] at h'
      obtain ⟨h1, h2, h3, h4⟩ := h'
      exact ⟨Or.inl h1.symm, h2.symm, h4.symm⟩
    · rw [if_pos heg] at h
      cases hb : build_game_data game gm lvl with
      | error e =>
        rw [hb, exBindErr] at h
        exact Except.noConfusion h
      | ok gd =>
        rw [hb, exBindOk] at h
        by_cases hc : has_game_changed eg gd = true
        · rw [if_pos hc] at h
          injection h with h'
          simp only [Prod.mk.injEq] at h'
          obtain ⟨h1, h2, h3, h4⟩ := h'
          exact ⟨Or.inr ⟨_, h1.symm⟩, h2.symm, h4.symm⟩
        · rw [if_neg hc] at h
          injection h with h'
          simp only [Prod.mk.injEq] at h'
          obtain ⟨h1, h2, h3, h4⟩ := h'
          exact ⟨Or.inl h1.symm, h2.symm, h4.symm⟩

theorem process_game_row_ops_classify (existing_games : List (String × Doc))
    (gen : Nat → String) (game : Row) (n : Nat) (ops : List BatchOp) (row' : Row)
    (log : List String) (n' : Nat)
    (h : process_game_row existing_games gen game n = Except.ok (ops, row', log, n')) :
    ops = [] ∨
    (∃ gid gd, ops =
        [BatchOp.updateGame gid (gd ++ [("updatedAt", Value.serverTimestamp)])] ∧
      lookupA (gd ++ [("updatedAt", Value.serverTimestamp)]) "gameRefs" =
        Option.none) ∨
    (∃ gm lvl gd, ops =
        [BatchOp.setGame (gen n)
           (gd ++ [("createdAt", Value.serverTimestamp),
                   ("updatedAt", Value.serverTimestamp)]),
         BatchOp.unionGameRefs gm lvl [gen n]] ∧
      gd.get "gameModeId" = Value.str gm ∧ gd.get "levelId" = Value.str lvl) := by
  simp only [process_game_row] at h
  cases hlvl : game.item "levelId" with
  | error e =>
    rw [hlvl, exBindErr] at h
    exact Except.noConfusion h
  | ok lvl =>
  rw [hlvl, exBindOk] at h
  cases hgm : game.item "gameModeId" with
  | error e =>
    rw [hgm, exBindErr] at h
    exact Except.noConfusion h
  | ok gm =>
  rw [hgm, exBindOk] at h
  by_cases hf : pyFalsy (game.get? "id") = true
  · rw [if_pos hf] at h
    cases hb : build_game_data game gm lvl with
    | error e =>
      rw [hb, exBindErr] at h
      exact Except.noConfusion h
    | ok gd =>
      rw [hb, exBindOk] at h
      injection h with h'
      simp only [Prod.mk.injEq] at h'
      obtain ⟨h1, h2, h3, h4⟩ := h'
      refine Or.inr (Or.inr ⟨gm, lvl, gd, h1.symm, ?_, ?_⟩)
      · obtain ⟨nm, ins, tl, ab, _, _, _, _, hgd⟩ :=
          build_game_data_shape game gm lvl gd hb
        subst hgd
        simp [Doc.get, lookupA]
      · obtain ⟨nm, ins, tl, ab, _, _, _, _, hgd⟩ :=
          build_game_data_shape game gm lvl gd hb
        subst hgd
        simp [Doc.get, lookupA]
  · rw [if_neg hf] at h
    cases hlk : lookupA existing_games ((game.get? "id").getD "") with
    | none =>
      simp only [hlk] at h
      injection h with h'
      simp only [Prod.mk.injEq] at h'
      exact Or.inl h'.1.symm
    | some eg =>
      simp only [hlk] at h
      by_cases heg : eg = []
      · rw [if_neg (fun hh => hh heg)] at h
        injection h with h'
        simp only [Prod.mk.injEq] at h'
        exact Or.inl h'.1.symm
      · rw [if_pos heg] at h
        cases hb : build_game_data game gm lvl with
        | error e =>
          rw [hb, exBindErr] at h
          exact Except.noConfusion h
        | ok gd =>
          rw [hb, exBindOk] at h
          by_cases hc : has_game_changed eg gd = true
          · rw [if_pos hc] at h
            injection h with h'
            simp only [Prod.mk.injEq] at h'
            refine Or.inr (Or.inl ⟨_, gd, h'.1.symm, ?_⟩)
            obtain ⟨nm, ins, tl, ab, _, _, _, _, hgd⟩ :=
              build_game_data_shape game gm lvl gd hb
            subst hgd
            simp [lookupA]
          · rw [if_neg hc] at h
            injection h with h'
            simp only [Prod.mk.injEq] at h'
            exact Or.inl h'.1.symm

theorem game_pass_gameRefs_discipline (existing_games : List (String × Doc))
    (gen : Nat → String) :
    ∀ (rows : List Row) (n : Nat) (ops : List BatchOp) (rows' : List Row)
      (log : List String),
    game_pass existing_games gen rows n = Except.ok (ops, rows', log) →
    (∀ gm lvl refs, BatchOp.unionGameRefs gm lvl refs ∈ ops →
      ∃ id gd, refs = [id] ∧
        BatchOp.setGame id
          (gd ++ [("createdAt", Value.serverTimestamp),
                  ("updatedAt", Value.serverTimestamp)]) ∈ ops ∧
        gd.get "gameModeId" = Value.str gm ∧ gd.get "levelId" = Value.str lvl) ∧
    (∀ gid d, BatchOp.updateGame gid d ∈ ops →
      lookupA d "gameRefs" = Option.none) ∧
    (∀ gm lvl d, BatchOp.updateLevel gm lvl d ∉ ops ∧
      BatchOp.setLevel gm lvl d ∉ ops) := by
  intro rows
  induction rows with
  | nil =>
    intro n ops rows' log h
    simp only [game_pass] at h
    injection h with h'
    simp only [Prod.mk.injEq] at h'
    obtain ⟨h1, h2, h3⟩ := h'
    subst h1
    exact ⟨fun gm lvl refs hmem => absurd hmem (List.not_mem_nil _),
      fun gid d hmem => absurd hmem (List.not_mem_nil _),
      fun gm lvl d => ⟨List.not_mem_nil _, List.not_mem_nil _⟩⟩
  | cons game rest ih =>
    intro n ops rows' log h
    simp only [game_pass] at h
    cases hpr : process_game_row existing_games gen game n with
    | error e =>
      cases e with
      | keyError k =>
        simp only [hpr] at h
        cases hrest : game_pass existing_games gen rest n with
        | error e2 =>
          simp only [hrest] at h
          exact Except.noConfusion h
        | ok res =>
          obtain ⟨ops1, rows1, log1⟩ := res
          simp only [hrest] at h
          injection h with h'
          simp only [Prod.mk.injEq] at h'
          obtain ⟨h1, h2, h3⟩ := h'
          subst h1
          exact ih n ops1 rows1 log1 hrest
      | valueError =>
        simp only [hpr] at h
        exact Except.noConfusion h
    | ok res =>
      obtain ⟨ops1, row1, log1, n1⟩ := res
      simp only [hpr] at h
      cases hrest : game_pass existing_games gen rest n1 with
      | error e2 =>
        simp only [hrest] at h
        exact Except.noConfusion h
      | ok res2 =>
        obtain ⟨ops2, rows2, log2⟩ := res2
        simp only [hrest] at h
        injection h with h'
        simp only [Prod.mk.injEq] at h'
        obtain ⟨h1, h2, h3⟩ := h'
        subst h1
        obtain ⟨ihu, ihg, ihl⟩ := ih n1 ops2 rows2 log2 hrest
        have hcls := process_game_row_ops_classify existing_games gen game n
          ops1 row1 log1 n1 hpr
        refine ⟨?_, ?_, ?_⟩
        · intro gm lvl refs hmem
          rcases List.mem_append.mp hmem with hm1 | hm2
          · rcases hcls with rfl | ⟨gid, gd, rfl, _⟩ | ⟨gm', lvl', gd, rfl, hgm', hlvl'⟩
            · exact absurd hm1 (List.not_mem_nil _)
            · rcases List.mem_cons.mp hm1 with h1 | h1
              · exact absurd h1 (by simp)
              · exact absurd h1 (List.not_mem_nil _)
            · rcases List.mem_cons.mp hm1 with h1 | h1
              · exact absurd h1 (by simp)
              · rcases List.mem_cons.mp h1 with h2 | h2
                · injection h2 with e1 e2 e3
                  subst e1; subst e2; subst e3
                  refine ⟨gen n, gd, rfl, ?_, hgm', hlvl'⟩
                  exact List.mem_append_left _ (by simp)
                · exact absurd h2 (List.not_mem_nil _)
          · obtain ⟨id, gd, hrefs, hset, hgm', hlvl'⟩ := ihu gm lvl refs hm2
            exact ⟨id, gd, hrefs, List.mem_append_right _ hset, hgm', hlvl'⟩
        · intro gid d hmem
          rcases List.mem_append.mp hmem with hm1 | hm2
          · rcases hcls with rfl | ⟨gid', gd, rfl, hnone⟩ | ⟨gm', lvl', gd, rfl, _, _⟩
            · exact absurd hm1 (List.not_mem_nil _)
            · rcases List.mem_cons.mp hm1 with h1 | h1
              · injection h1 with e1 e2
                subst e2
                exact hnone
              · exact absurd h1 (List.not_mem_nil _)
            · rcases List.mem_cons.mp hm1 with h1 | h1
              · exact absurd h1 (by simp)
              · rcases List.mem_cons.mp h1 with h2 | h2
                · exact absurd h2 (by simp)
                · exact absurd h2 (List.not_mem_nil _)
          · exact ihg gid d hm2
        · intro gm lvl d
          constructor
          · intro hmem
            rcases List.mem_append.mp hmem with hm1 | hm2
            · rcases hcls with rfl | ⟨gid', gd, rfl, _⟩ | ⟨gm', lvl', gd, rfl, _, _⟩
              · exact absurd hm1 (List.not_mem_nil _)
              · rcases List.mem_cons.mp hm1 with h1 | h1
                · exact absurd h1 (by simp)
                · exact absurd h1 (List.not_mem_nil _)
              · rcases List.mem_cons.mp hm1 with h1 | h1
                · exact absurd h1 (by simp)
                · rcases List.mem_cons.mp h1 with h2 | h2
                  · exact absurd h2 (by simp)
                  · exact absurd h2 (List.not_mem_nil _)
            · exact (ihl gm lvl d).1 hm2
          · intro hmem
            rcases List.mem_append.mp hmem with hm1 | hm2
            · rcases hcls with rfl | ⟨gid', gd, rfl, _⟩ | ⟨gm', lvl', gd, rfl, _, _⟩
              · exact absurd hm1 (List.not_mem_nil _)
              · rcases List.mem_cons.mp hm1 with h1 | h1
                · exact absurd h1 (by simp)
                · exact absurd h1 (List.not_mem_nil _)
              · rcases List.mem_cons.mp hm1 with h1 | h1
                · exact absurd h1 (by simp)
                · rcases List.mem_cons.mp h1 with h2 | h2
                  · exact absurd h2 (by simp)
                  · exact absurd h2 (List.not_mem_nil _)
            · exact (ihl gm lvl d).2 hm2

theorem process_structure_row_ops_shape (db : Store) (r : Row)
    (ops : List BatchOp) (log : List String)
    (h : process_structure_row db r = Except.ok (ops, log)) :
    ∀ op ∈ ops,
      (∀ gm lvl refs, op ≠ BatchOp.unionGameRefs gm lvl refs) ∧
      (∀ id d, op ≠ BatchOp.setGame id d) ∧
      (∀ id d, op ≠ BatchOp.updateGame id d) ∧
      (∀ gm lvl d, op = BatchOp.updateLevel gm lvl d →
        lookupA d "gameRefs" = Option.none) := by
  simp only [process_structure_row] at h
  cases h1 : r.item "id" with
  | error e => rw [h1, exBindErr] at h; exact Except.noConfusion h
  | ok gm =>
  rw [h1, exBindOk] at h
  cases h2 : r.item "levelId" with
  | error e => rw [h2, exBindErr] at h; exact Except.noConfusion h
  | ok lvl =>
  rw [h2, exBindOk] at h
  cases h3 : r.item "name" with
  | error e => rw [h3, exBindErr] at h; exact Except.noConfusion h
  | ok nm =>
  rw [h3, exBindOk] at h
  cases h4 : r.item "description" with
  | error e => rw [h4, exBindErr] at h; exact Except.noConfusion h
  | ok dsc =>
  rw [h4, exBindOk] at h
  cases h5 : r.item "levelName" with
  | error e => rw [h5, exBindErr] at h; exact Except.noConfusion h
  | ok lnm =>
  rw [h5, exBindOk] at h
  cases h6 : r.item "levelDescription" with
  | error e => rw [h6, exBindErr] at h; exact Except.noConfusion h
  | ok ldsc =>
  rw [h6, exBindOk] at h
  cases h7 : r.item "levelSuggestedTimeLimit" with
  | error e => rw [h7, exBindErr] at h; exact Except.noConfusion h
  | ok sug =>
  rw [h7, exBindOk, exPure] at h
  injection h with h'
  injection h' with hops hlog
  subst hops
  intro op hop
  by_cases hm : (lookupA db.gameModes gm).isSome = true
  · rw [if_pos hm] at hop
    by_cases hl : (lookupA db.levels (gm, lvl)).isSome = true
    · rw [if_pos hl] at hop
      rcases List.mem_append.mp hop with hx | hx
      · rcases List.mem_cons.mp hx with hy | hy
        · subst hy
          exact ⟨by simp, by simp, by simp, by simp⟩
        · exact absurd hy (List.not_mem_nil _)
      · rcases List.mem_cons.mp hx with hy | hy
        · subst hy
          refine ⟨by simp, by simp, by simp, ?_⟩
          intro gm' lvl' d hd
          injection hd with e1 e2 e3
          subst e3
          simp [lookupA]
        · exact absurd hy (List.not_mem_nil _)
    · rw [if_neg hl] at hop
      rcases List.mem_append.mp hop with hx | hx
      · rcases List.mem_cons.mp hx with hy | hy
        · subst hy
          exact ⟨by simp, by simp, by simp, by simp⟩
        · exact absurd hy (List.not_mem_nil _)
      · rcases List.mem_cons.mp hx with hy | hy
        · subst hy
          exact ⟨by simp, by simp, by simp, by simp⟩
        · exact absurd hy (List.not_mem_nil _)
  · rw [if_neg hm] at hop
    by_cases hl : (lookupA db.levels (gm, lvl)).isSome = true
    · rw [if_pos hl] at hop
      rcases List.mem_append.mp hop with hx | hx
      · rcases List.mem_cons.mp hx with hy | hy
        · subst hy
          exact ⟨by simp, by simp, by simp, by simp⟩
        · exact absurd hy (List.not_mem_nil _)
      · rcases List.mem_cons.mp hx with hy | hy
        · subst hy
          refine ⟨by simp, by simp, by simp, ?_⟩
          intro gm' lvl' d hd
          injection hd with e1 e2 e3
          subst e3
          simp [lookupA]
        · exact absurd hy (List.not_mem_nil _)
    · rw [if_neg hl] at hop
      rcases List.mem_append.mp hop with hx | hx
      · rcases List.mem_cons.mp hx with hy | hy
        · subst hy
          exact ⟨by simp, by simp, by simp, by simp⟩
        · exact absurd hy (List.not_mem_nil _)
      · rcases List.mem_cons.mp hx with hy | hy
        · subst hy
          exact ⟨by simp, by simp, by simp, by simp⟩
        · exact absurd hy (List.not_mem_nil _)

theorem structure_pass_ops_shape (db : Store) :
    ∀ (rows : List Row) (ops : List BatchOp) (log : List String),
    structure_pass db rows = Except.ok (ops, log) →
    ∀ op ∈ ops,
      (∀ gm lvl refs, op ≠ BatchOp.unionGameRefs gm lvl refs) ∧
      (∀ id d, op ≠ BatchOp.setGame id d) ∧
      (∀ id d, op ≠ BatchOp.updateGame id d) ∧
      (∀ gm lvl d, op = BatchOp.updateLevel gm lvl d →
        lookupA d "gameRefs" = Option.none) := by
  intro rows
  induction rows with
  | nil =>
    intro ops log h
    simp only [structure_pass] at h
    injection h with h'
    injection h' with hops hlog
    subst hops
    intro op hop
    exact absurd hop (List.not_mem_nil _)
  | cons r rest ih =>
    intro ops log h
    simp only [structure_pass] at h
    cases hr : process_structure_row db r with
    | error e => simp only [hr, exBindErr] at h; exact Except.noConfusion h
    | ok res =>
      obtain ⟨ops1, log1⟩ := res
      simp only [hr, exBindOk] at h
      cases hrest : structure_pass db rest with
      | error e => simp only [hrest, exBindErr] at h; exact Except.noConfusion h
      | ok res2 =>
        obtain ⟨ops2, log2⟩ := res2
        simp only [hrest, exBindOk, exPure] at h
        injection h with h'
        injection h' with hops hlog
        subst hops
        intro op hop
        rcases List.mem_append.mp hop with hx | hx
        · exact process_structure_row_ops_shape db r ops1 log1 hr op hx
        · exact ih ops2 log2 hrest op hx

/-- The game-document id a batch op writes, if any. -/
def gameWriteTarget? : BatchOp → Option String
  | BatchOp.setGame id _ => some id
  | BatchOp.updateGame id _ => some id
  | _ => Option.none

/-- The game writes of a batch that target document `gid`. -/
def gameWritesFor (gid : String) (ops : List BatchOp) : List BatchOp :=
  ops.filter fun op => decide (gameWriteTarget? op = some gid)

/-- The non-empty ids present in a list of game rows. -/
def rowIds (rows : List Row) : List String :=
  rows.filterMap fun r =>
    match Row.get? r "id" with
    | some s => if s = "" then Option.none else some s
    | Option.none => Option.none

/-- A row is stable against a games snapshot: it carries a non-empty id
and reprocessing it yields no batch write (id not found, found empty, or
found with no tracked-field difference). -/
def RowStable (existing : List (String × Doc)) (r : Row) : Prop :=
  ∃ gid, Row.get? r "id" = some gid ∧ gid ≠ "" ∧
    (lookupA existing gid = Option.none ∨
     lookupA existing gid = some [] ∨
     (∃ eg lvl gm gd, lookupA existing gid = some eg ∧ eg ≠ [] ∧
        Row.item r "levelId" = Except.ok lvl ∧
        Row.item r "gameModeId" = Except.ok gm ∧
        build_game_data r gm lvl = Except.ok gd ∧
        has_game_changed eg gd = false))

/-- A processed row together with the batch writes its id received during
the run: either exactly one `set` (creation) or one `update` whose data
rebuilds from the row itself, or no write at all with the snapshot
explaining why. -/
def RowSettledAt (existing : List (String × Doc)) (ops : List BatchOp)
    (gid : String) (r : Row) : Prop :=
  (∃ lvl gm gd, Row.item r "levelId" = Except.ok lvl ∧
     Row.item r "gameModeId" = Except.ok gm ∧
     build_game_data r gm lvl = Except.ok gd ∧
     (gameWritesFor gid ops =
        [BatchOp.setGame gid (gd ++ [("createdAt", Value.serverTimestamp),
                                     ("updatedAt", Value.serverTimestamp)])] ∨
      gameWritesFor gid ops =
        [BatchOp.updateGame gid (gd ++ [("updatedAt", Value.serverTimestamp)])] ∨
      (gameWritesFor gid ops = [] ∧
       ∃ eg, lookupA existing gid = some eg ∧ eg ≠ [] ∧
         has_game_changed eg gd = false))) ∨
  (gameWritesFor gid ops = [] ∧
    (lookupA existing gid = Option.none ∨ lookupA existing gid = some []))


theorem process_game_row_cases (existing_games : List (String × Doc))
    (gen : Nat → String) (game : Row) (n : Nat) (ops : List BatchOp)
    (row' : Row) (log : List String) (n' : Nat)
    (h : process_game_row existing_games gen game n = Except.ok (ops, row', log, n')) :
    (∃ lvl gm gd, pyFalsy (game.get? "id") = true ∧
       game.item "levelId" = Except.ok lvl ∧
       game.item "gameModeId" = Except.ok gm ∧
       build_game_data game gm lvl = Except.ok gd ∧
       ops = [BatchOp.setGame (gen n)
                (gd ++ [("createdAt", Value.serverTimestamp),
                        ("updatedAt", Value.serverTimestamp)]),
              BatchOp.unionGameRefs gm lvl [gen n]] ∧
       row' = game.set "id" (gen n) ∧ n' = n + 1) ∨
    (∃ gid, game.get? "id" = some gid ∧ gid ≠ "" ∧ row' = game ∧ n' = n ∧
       ((∃ lvl gm gd eg,
           game.item "levelId" = Except.ok lvl ∧
           game.item "gameModeId" = Except.ok gm ∧
           lookupA existing_games gid = some eg ∧ eg ≠ [] ∧
           build_game_data game gm lvl = Except.ok gd ∧
           ((has_game_changed eg gd = true ∧
             ops = [BatchOp.updateGame gid
                      (gd ++ [("updatedAt", Value.serverTimestamp)])]) ∨
            (has_game_changed eg gd = false ∧ ops = []))) ∨
        (ops = [] ∧
         (lookupA existing_games gid = Option.none ∨
          lookupA existing_games gid = some [])))) := by
  simp only [process_game_row] at h
  cases hlvl : game.item "levelId" with
  | error e => rw [hlvl, exBindErr] at h; exact Except.noConfusion h
  | ok lvl =>
  rw [hlvl, exBindOk] at h
  cases hgm : game.item "gameModeId" with
  | error e => rw [hgm, exBindErr] at h; exact Except.noConfusion h
  | ok gm =>
  rw [hgm, exBindOk] at h
  by_cases hf : pyFalsy (game.get? "id") = true
  · rw [if_pos hf] at h
    cases hb : build_game_data game gm lvl with
    | error e => rw [hb, exBindErr] at h; exact Except.noConfusion h
    | ok gd =>
      rw [hb, exBindOk] at h
      injection h with h'
      simp only [Prod.mk.injEq] at h'
      obtain ⟨h1, h2, h3, h4⟩ := h'
      exact Or.inl ⟨lvl, gm, gd, hf, rfl, rfl, hb, h1.symm, h2.symm, h4.symm⟩
  · rw [if_neg hf] at h
    cases hid : game.get? "id" with
    | none =>
      rw [hid] at hf
      exact absurd rfl hf
    | some gid =>
    have hne : gid ≠ "" := by
      intro he
      subst he
      rw [hid] at hf
      exact hf rfl
    rw [hid] at h
    simp only [Option.getD_some] at h
    cases hlk : lookupA existing_games gid with
    | none =>
      simp only [hlk] at h
      injection h with h'
      simp only [Prod.mk.injEq] at h'
      obtain ⟨h1, h2, h3, h4⟩ := h'
      exact Or.inr ⟨gid, rfl, hne, h2.symm, h4.symm,
        Or.inr ⟨h1.symm, Or.inl hlk⟩⟩
    | some eg =>
      simp only [hlk] at h
      by_cases heg : eg = []
      · rw [if_neg (fun hh => hh heg)] at h
        injection h with h'
        simp only [Prod.mk.injEq] at h'
        obtain ⟨h1, h2, h3, h4⟩ := h'
        subst heg
        exact Or.inr ⟨gid, rfl, hne, h2.symm, h4.symm,
          Or.inr ⟨h1.symm, Or.inr hlk⟩⟩
      · rw [if_pos heg] at h
        cases hb : build_game_data game gm lvl with
        | error e => rw [hb, exBindErr] at h; exact Except.noConfusion h
        | ok gd =>
          rw [hb, exBindOk] at h
          by_cases hc : has_game_changed eg gd = true
          · rw [if_pos hc] at h
            injection h with h'
            simp only [Prod.mk.injEq] at h'
            obtain ⟨h1, h2, h3, h4⟩ := h'
            exact Or.inr ⟨gid, rfl, hne, h2.symm, h4.symm,
              Or.inl ⟨lvl, gm, gd, eg, rfl, rfl, hlk, heg, hb,
                Or.inl ⟨hc, h1.symm⟩⟩⟩
          · rw [if_neg hc] at h
            injection h with h'
            simp only [Prod.mk.injEq] at h'
            obtain ⟨h1, h2, h3, h4⟩ := h'
            exact Or.inr ⟨gid, rfl, hne, h2.symm, h4.symm,
              Or.inl ⟨lvl, gm, gd, eg, rfl, rfl, hlk, heg, hb,
                Or.inr ⟨Bool.not_eq_true _ ▸ hc, h1.symm⟩⟩⟩


theorem rowIds_cons (r : Row) (rest : List Row) :
    rowIds (r :: rest) =
      (match Row.get? r "id" with
       | some s => if s = "" then rowIds rest else s :: rowIds rest
       | Option.none => rowIds rest) := by
  simp only [rowIds, List.filterMap_cons]
  cases Row.get? r "id" with
  | none => rfl
  | some s =>
    by_cases hs : s = "" <;> simp [hs]

theorem rowIds_sublist (r : Row) (rest : List Row) (x : String) :
    x ∈ rowIds rest → x ∈ rowIds (r :: rest) := by
  intro hx
  rw [rowIds_cons]
  cases Row.get? r "id" with
  | none => exact hx
  | some s =>
    by_cases hs : s = "" <;> simp [hs, hx]

theorem rowIds_nodup_tail (r : Row) (rest : List Row)
    (h : (rowIds (r :: rest)).Nodup) : (rowIds rest).Nodup := by
  rw [rowIds_cons] at h
  cases hid : Row.get? r "id" with
  | none => simp only [hid] at h; exact h
  | some s =>
    simp only [hid] at h
    by_cases hs : s = ""
    · rw [if_pos hs] at h; exact h
    · rw [if_neg hs] at h; exact h.of_cons

theorem build_game_data_set_id (game : Row) (v gm lvl : String) :
    build_game_data (game.set "id" v) gm lvl = build_game_data game gm lvl := by
  simp only [build_game_data,
    Row.item_set_ne game "id" "name" v (by decide),
    Row.item_set_ne game "id" "instructions" v (by decide),
    Row.item_set_ne game "id" "timeLimit" v (by decide),
    Row.item_set_ne game "id" "answerBank" v (by decide),
    Row.get?_set_ne game "id" "description" v (by decide),
    Row.get?_set_ne game "id" "letterPosition" v (by decide),
    Row.get?_set_ne game "id" "targetLetter" v (by decide)]

theorem lookupA_append {β : Type} (a b : List (String × β)) (k : String) :
    lookupA (a ++ b) k = (lookupA a k).orElse (fun _ => lookupA b k) := by
  induction a with
  | nil => simp [lookupA]
  | cons kv rest ih =>
    obtain ⟨k0, v0⟩ := kv
    by_cases h0 : k0 = k <;> simp [lookupA, h0, ih]

theorem lookupA_mergeDoc_not_mem (data : Doc) :
    ∀ (old : Doc) (k : String), k ∉ data.map Prod.fst →
    lookupA (mergeDoc old data) k = lookupA old k := by
  induction data with
  | nil => intro old k _; rfl
  | cons kv rest ih =>
    intro old k hk
    obtain ⟨k0, v0⟩ := kv
    simp only [List.map_cons, List.mem_cons] at hk
    push_neg at hk
    obtain ⟨hk0, hkrest⟩ := hk
    simp only [mergeDoc, List.foldl_cons] at *
    rw [ih (setA old k0 v0) k hkrest, lookupA_setA]
    rw [if_neg (fun hh => hk0 (hh.symm))]

theorem lookupA_mergeDoc_of_mem (data : Doc) :
    ∀ (old : Doc) (k : String) (v : Value),
    (data.map Prod.fst).Nodup → lookupA data k = some v →
    lookupA (mergeDoc old data) k = some v := by
  induction data with
  | nil => intro old k v _ hv; exact absurd hv (by simp [lookupA])
  | cons kv rest ih =>
    intro old k v hnd hv
    obtain ⟨k0, v0⟩ := kv
    simp only [List.map_cons, List.nodup_cons] at hnd
    obtain ⟨hk0, hndrest⟩ := hnd
    simp only [mergeDoc, List.foldl_cons] at *
    by_cases h0 : k0 = k
    · subst h0
      simp only [lookupA, if_pos rfl] at hv
      injection hv with hv
      subst hv
      have hnm := lookupA_mergeDoc_not_mem rest (setA old k0 v0) k0 hk0
      simp only [mergeDoc] at hnm
      rw [hnm, lookupA_setA]
      simp
    · simp only [lookupA, if_neg h0] at hv
      exact ih (setA old k0 v0) k v hndrest hv

theorem resolveDoc_append (t : Nat) (a b : Doc) :
    resolveDoc t (a ++ b) = resolveDoc t a ++ resolveDoc t b := by
  simp [resolveDoc]

theorem resolveDoc_build (t : Nat) (game : Row) (gm lvl : String) (gd : Doc)
    (h : build_game_data game gm lvl = Except.ok gd) :
    resolveDoc t gd = gd := by
  obtain ⟨nm, ins, tl, ab, _, _, htl, hab, hgd⟩ :=
    build_game_data_shape game gm lvl gd h
  subst hgd
  simp only [resolveDoc, List.map_cons, List.map_nil, resolveTS]
  rcases htl with rfl | ⟨q, rfl⟩ <;>
    rcases hab with rfl | ⟨xs, rfl⟩ <;>
      cases hd : game.get? "description" <;>
        cases hl : game.get? "letterPosition" <;>
          cases ht2 : game.get? "targetLetter" <;>
            simp [resolveTS, optStr]


theorem build_tracked_lookup (game : Row) (gm lvl : String) (gd : Doc)
    (h : build_game_data game gm lvl = Except.ok gd) :
    ∀ k ∈ keys_to_check, ∃ v, lookupA gd k = some v := by
  obtain ⟨nm, ins, tl, ab, _, _, _, _, hgd⟩ := build_game_data_shape game gm lvl gd h
  subst hgd
  intro k hk
  simp only [keys_to_check, List.mem_cons, List.not_mem_nil, or_false] at hk
  rcases hk with rfl | rfl | rfl | rfl | rfl | rfl | rfl | rfl <;>
    exact ⟨_, rfl⟩

theorem build_upd_keys_nodup (game : Row) (gm lvl : String) (gd : Doc)
    (h : build_game_data game gm lvl = Except.ok gd) (w : Value) :
    ((gd ++ [("updatedAt", w)]).map Prod.fst).Nodup := by
  obtain ⟨nm, ins, tl, ab, _, _, _, _, hgd⟩ := build_game_data_shape game gm lvl gd h
  subst hgd
  simp only [List.map_append, List.map_cons, List.map_nil]
  decide

theorem build_ne_nil (game : Row) (gm lvl : String) (gd : Doc)
    (h : build_game_data game gm lvl = Except.ok gd) : gd ≠ [] := by
  obtain ⟨nm, ins, tl, ab, _, _, _, _, hgd⟩ := build_game_data_shape game gm lvl gd h
  subst hgd
  simp

theorem has_game_changed_append_false (game : Row) (gm lvl : String)
    (gd extra : Doc) (h : build_game_data game gm lvl = Except.ok gd) :
    has_game_changed (gd ++ extra) gd = false := by
  rw [has_game_changed_eq_false_iff]
  intro k hk
  obtain ⟨v, hv⟩ := build_tracked_lookup game gm lvl gd h k hk
  simp [Doc.get, lookupA_append, hv]

theorem has_game_changed_merge_false (game : Row) (gm lvl : String)
    (gd old : Doc) (w : Value) (h : build_game_data game gm lvl = Except.ok gd) :
    has_game_changed (mergeDoc old (gd ++ [("updatedAt", w)])) gd = false := by
  rw [has_game_changed_eq_false_iff]
  intro k hk
  obtain ⟨v, hv⟩ := build_tracked_lookup game gm lvl gd h k hk
  have hdata : lookupA (gd ++ [("updatedAt", w)]) k = some v := by
    simp [lookupA_append, hv]
  have hm := lookupA_mergeDoc_of_mem (gd ++ [("updatedAt", w)]) old k v
    (build_upd_keys_nodup game gm lvl gd h w) hdata
  simp [Doc.get, hm, hv]

theorem merge_build_ne_nil (game : Row) (gm lvl : String) (gd old : Doc)
    (w : Value) (h : build_game_data game gm lvl = Except.ok gd) :
    mergeDoc old (gd ++ [("updatedAt", w)]) ≠ [] := by
  obtain ⟨v, hv⟩ := build_tracked_lookup game gm lvl gd h "instructions" (by decide)
  have hdata : lookupA (gd ++ [("updatedAt", w)]) "instructions" = some v := by
    simp [lookupA_append, hv]
  have hm := lookupA_mergeDoc_of_mem (gd ++ [("updatedAt", w)]) old "instructions" v
    (build_upd_keys_nodup game gm lvl gd h w) hdata
  intro he
  rw [he] at hm
  simp [lookupA] at hm

theorem gameWritesFor_append (gid : String) (a b : List BatchOp) :
    gameWritesFor gid (a ++ b) = gameWritesFor gid a ++ gameWritesFor gid b := by
  simp [gameWritesFor, List.filter_append]

theorem gameWritesFor_cons (gid : String) (op : BatchOp) (rest : List BatchOp) :
    gameWritesFor gid (op :: rest) =
      if gameWriteTarget? op = some gid then op :: gameWritesFor gid rest
      else gameWritesFor gid rest := by
  simp only [gameWritesFor, List.filter_cons]
  by_cases hp : gameWriteTarget? op = some gid <;> simp [hp]

theorem gameWritesFor_eq_nil (gid : String) (ops : List BatchOp)
    (h : ∀ op ∈ ops, gameWriteTarget? op ≠ some gid) :
    gameWritesFor gid ops = [] := by
  simp only [gameWritesFor, List.filter_eq_nil_iff]
  intro op hop
  simp [h op hop]

theorem applyOp_games_untargeted (t : Nat) (s s' : Store) (op : BatchOp)
    (gid : String) (h : applyOp t s op = some s')
    (hng : gameWriteTarget? op ≠ some gid) :
    lookupA s'.games gid = lookupA s.games gid := by
  cases op with
  | setGameMode id d =>
    simp only [applyOp] at h
    injection h with h
    rw [← h]
  | updateGameMode id d =>
    simp only [applyOp] at h
    cases hx : lookupA s.gameModes id with
    | none => rw [hx] at h; exact Option.noConfusion h
    | some old =>
      rw [hx] at h
      injection h with h
      rw [← h]
  | setLevel gm lvl d =>
    simp only [applyOp] at h
    injection h with h
    rw [← h]
  | updateLevel gm lvl d =>
    simp only [applyOp] at h
    cases hx : lookupA s.levels (gm, lvl) with
    | none => rw [hx] at h; exact Option.noConfusion h
    | some old =>
      rw [hx] at h
      injection h with h
      rw [← h]
  | unionGameRefs gm lvl refs =>
    simp only [applyOp] at h
    cases hx : lookupA s.levels (gm, lvl) with
    | none => rw [hx] at h; exact Option.noConfusion h
    | some old =>
      rw [hx] at h
      injection h with h
      rw [← h]
  | setGame id d =>
    have hne : id ≠ gid := fun he => hng (by simp [gameWriteTarget?, he])
    simp only [applyOp] at h
    injection h with h
    rw [← h]
    simp only [lookupA_setA, if_neg hne]
  | updateGame id d =>
    have hne : id ≠ gid := fun he => hng (by simp [gameWriteTarget?, he])
    simp only [applyOp] at h
    cases hx : lookupA s.games id with
    | none => rw [hx] at h; exact Option.noConfusion h
    | some old =>
      rw [hx] at h
      injection h with h
      rw [← h]
      simp only [lookupA_setA, if_neg hne]

theorem commit_games_untargeted (t : Nat) :
    ∀ (ops : List BatchOp) (s s' : Store) (gid : String),
    commit t s ops = some s' →
    gameWritesFor gid ops = [] →
    lookupA s'.games gid = lookupA s.games gid := by
  intro ops
  induction ops with
  | nil =>
    intro s s' gid h _
    simp only [commit] at h
    injection h with h
    rw [← h]
  | cons op rest ih =>
    intro s s' gid h hnil
    rw [gameWritesFor_cons] at hnil
    by_cases hp : gameWriteTarget? op = some gid
    · rw [if_pos hp] at hnil
      exact List.noConfusion hnil
    · rw [if_neg hp] at hnil
      simp only [commit] at h
      cases ha : applyOp t s op with
      | none => rw [ha] at h; exact Option.noConfusion h
      | some s1 =>
        rw [ha] at h
        rw [ih s1 s' gid h hnil]
        exact applyOp_games_untargeted t s s1 op gid ha hp


theorem commit_games_set (t : Nat) :
    ∀ (ops : List BatchOp) (s s' : Store) (gid : String) (d : Doc),
    commit t s ops = some s' →
    gameWritesFor gid ops = [BatchOp.setGame gid d] →
    lookupA s'.games gid = some (resolveDoc t d) := by
  intro ops
  induction ops with
  | nil =>
    intro s s' gid d _ hw
    exact List.noConfusion hw
  | cons op rest ih =>
    intro s s' gid d h hw
    rw [gameWritesFor_cons] at hw
    simp only [commit] at h
    cases ha : applyOp t s op with
    | none => rw [ha] at h; exact Option.noConfusion h
    | some s1 =>
      rw [ha] at h
      by_cases hp : gameWriteTarget? op = some gid
      · rw [if_pos hp] at hw
        injection hw with hop hrest
        subst hop
        simp only [applyOp] at ha
        injection ha with ha
        have h1 : lookupA s1.games gid = some (resolveDoc t d) := by
          rw [← ha]
          simp [lookupA_setA]
        rw [commit_games_untargeted t rest s1 s' gid h hrest, h1]
      · rw [if_neg hp] at hw
        rw [ih s1 s' gid d h hw]

theorem commit_games_update (t : Nat) :
    ∀ (ops : List BatchOp) (s s' : Store) (gid : String) (d : Doc),
    commit t s ops = some s' →
    gameWritesFor gid ops = [BatchOp.updateGame gid d] →
    ∃ old, lookupA s.games gid = some old ∧
      lookupA s'.games gid = some (mergeDoc old (resolveDoc t d)) := by
  intro ops
  induction ops with
  | nil =>
    intro s s' gid d _ hw
    exact List.noConfusion hw
  | cons op rest ih =>
    intro s s' gid d h hw
    rw [gameWritesFor_cons] at hw
    simp only [commit] at h
    cases ha : applyOp t s op with
    | none => rw [ha] at h; exact Option.noConfusion h
    | some s1 =>
      rw [ha] at h
      by_cases hp : gameWriteTarget? op = some gid
      · rw [if_pos hp] at hw
        injection hw with hop hrest
        subst hop
        simp only [applyOp] at ha
        cases hx : lookupA s.games gid with
        | none => rw [hx] at ha; exact Option.noConfusion ha
        | some old =>
          rw [hx] at ha
          injection ha with ha
          refine ⟨old, rfl, ?_⟩
          have h1 : lookupA s1.games gid = some (mergeDoc old (resolveDoc t d)) := by
            rw [← ha]
            simp [lookupA_setA]
          rw [commit_games_untargeted t rest s1 s' gid h hrest, h1]
      · rw [if_neg hp] at hw
        obtain ⟨old, ho1, ho2⟩ := ih s1 s' gid d h hw
        refine ⟨old, ?_, ho2⟩
        rw [← applyOp_games_untargeted t s s1 op gid ha hp, ho1]

theorem structure_pass_no_game_targets (db : Store) (rows : List Row)
    (sOps : List BatchOp) (sLog : List String)
    (h : structure_pass db rows = Except.ok (sOps, sLog)) :
    ∀ op ∈ sOps, gameWriteTarget? op = Option.none := by
  intro op hop
  have hs := structure_pass_ops_shape db rows sOps sLog h op hop
  cases op with
  | setGame id d => exact absurd rfl (hs.2.1 id d)
  | updateGame id d => exact absurd rfl (hs.2.2.1 id d)
  | setGameMode id d => rfl
  | updateGameMode id d => rfl
  | setLevel gm lvl d => rfl
  | updateLevel gm lvl d => rfl
  | unionGameRefs gm lvl refs => rfl


theorem game_pass_targets (existing_games : List (String × Doc)) (gen : Nat → String) :
    ∀ (rows : List Row) (n : Nat) (ops : List BatchOp) (rows' : List Row)
      (log : List String),
    game_pass existing_games gen rows n = Except.ok (ops, rows', log) →
    ∀ op ∈ ops, ∀ gid, gameWriteTarget? op = some gid →
      gid ∈ rowIds rows ∨ ∃ i, n ≤ i ∧ i < n + rows.length ∧ gid = gen i := by
  intro rows
  induction rows with
  | nil =>
    intro n ops rows' log h
    simp only [game_pass] at h
    injection h with h'
    simp only [Prod.mk.injEq] at h'
    obtain ⟨h1, _, _⟩ := h'
    subst h1
    intro op hop
    exact absurd hop (List.not_mem_nil _)
  | cons game rest ih =>
    intro n ops rows' log h
    simp only [game_pass] at h
    cases hpr : process_game_row existing_games gen game n with
    | error e =>
      cases e with
      | keyError k =>
        simp only [hpr] at h
        cases hrest : game_pass existing_games gen rest n with
        | error e2 => simp only [hrest] at h; exact Except.noConfusion h
        | ok res =>
          obtain ⟨ops1, rows1, log1⟩ := res
          simp only [hrest] at h
          injection h with h'
          simp only [Prod.mk.injEq] at h'
          obtain ⟨h1, _, _⟩ := h'
          subst h1
          intro op hop gid hgid
          rcases ih n ops1 rows1 log1 hrest op hop gid hgid with hc | ⟨i, hi1, hi2, hi3⟩
          · exact Or.inl (rowIds_sublist game rest gid hc)
          · exact Or.inr ⟨i, hi1, by simp only [List.length_cons]; omega, hi3⟩
      | valueError => simp only [hpr] at h; exact Except.noConfusion h
    | ok res =>
      obtain ⟨ops1, row1, log1, n1⟩ := res
      simp only [hpr] at h
      cases hrest : game_pass existing_games gen rest n1 with
      | error e2 => simp only [hrest] at h; exact Except.noConfusion h
      | ok res2 =>
        obtain ⟨ops2, rows2, log2⟩ := res2
        simp only [hrest] at h
        injection h with h'
        simp only [Prod.mk.injEq] at h'
        obtain ⟨h1, _, _⟩ := h'
        subst h1
        intro op hop gid hgid
        rcases process_game_row_cases existing_games gen game n ops1 row1 log1 n1
          hpr with
          ⟨lvl, gm, gd, _, _, _, _, hops1, _, hn1⟩ |
          ⟨gid0, hid0, hne0, _, hn1, hrest0⟩
        · subst hn1
          rw [hops1] at hop
          rcases List.mem_append.mp hop with hm | hm
          · rcases List.mem_cons.mp hm with hx | hx
            · subst hx
              simp only [gameWriteTarget?] at hgid
              injection hgid with hgid
              exact Or.inr ⟨n, Nat.le_refl n, by simp only [List.length_cons]; omega, hgid.symm⟩
            · rcases List.mem_cons.mp hx with hy | hy
              · subst hy
                simp only [gameWriteTarget?] at hgid
                exact Option.noConfusion hgid
              · exact absurd hy (List.not_mem_nil _)
          · rcases ih (n + 1) ops2 rows2 log2 hrest op hm gid hgid with hc | ⟨i, hi1, hi2, hi3⟩
            · exact Or.inl (rowIds_sublist game rest gid hc)
            · refine Or.inr ⟨i, by omega, ?_, hi3⟩
              simp only [List.length_cons]
              omega
        · rw [hn1] at hrest
          rcases List.mem_append.mp hop with hm | hm
          · rcases hrest0 with ⟨_, _, _, _, _, _, _, _, _, hupd | hskip⟩ | ⟨hops0, _⟩
            · obtain ⟨_, hops1⟩ := hupd
              rw [hops1] at hm
              rcases List.mem_cons.mp hm with hx | hx
              · subst hx
                simp only [gameWriteTarget?] at hgid
                injection hgid with hgid
                subst hgid
                refine Or.inl ?_
                simp only [rowIds_cons, hid0]
                rw [if_neg hne0]
                exact List.mem_cons_self _ _
              · exact absurd hx (List.not_mem_nil _)
            · obtain ⟨_, hops1⟩ := hskip
              rw [hops1] at hm
              exact absurd hm (List.not_mem_nil _)
            · rw [hops0] at hm
              exact absurd hm (List.not_mem_nil _)
          · rcases ih n ops2 rows2 log2 hrest op hm gid hgid with hc | ⟨i, hi1, hi2, hi3⟩
            · exact Or.inl (rowIds_sublist game rest gid hc)
            · exact Or.inr ⟨i, hi1, by simp only [List.length_cons]; omega, hi3⟩


theorem RowSettledAt_congr (existing_games : List (String × Doc))
    (ops ops' : List BatchOp) (gid : String) (r : Row)
    (h : gameWritesFor gid ops = gameWritesFor gid ops')
    (hs : RowSettledAt existing_games ops' gid r) :
    RowSettledAt existing_games ops gid r := by
  unfold RowSettledAt at *
  rw [h]
  exact hs

theorem game_pass_settles (existing_games : List (String × Doc)) (gen : Nat → String) :
    ∀ (rows : List Row) (n : Nat) (gOps : List BatchOp) (rows' : List Row)
      (log : List String),
    game_pass existing_games gen rows n = Except.ok (gOps, rows', log) →
    (rowIds rows).Nodup →
    (∀ i j, n ≤ i → i < n + rows.length → n ≤ j → j < n + rows.length →
      gen i = gen j → i = j) →
    (∀ i, n ≤ i → i < n + rows.length →
      gen i ∉ rowIds rows ∧ gen i ≠ "") →
    ∀ r' ∈ rows', ∃ gid, Row.get? r' "id" = some gid ∧ gid ≠ "" ∧
      (gid ∈ rowIds rows ∨ ∃ i, n ≤ i ∧ i < n + rows.length ∧ gid = gen i) ∧
      RowSettledAt existing_games gOps gid r' := by
  intro rows
  induction rows with
  | nil =>
    intro n gOps rows' log h _ _ _
    simp only [game_pass] at h
    injection h with h'
    simp only [Prod.mk.injEq] at h'
    obtain ⟨_, h2, _⟩ := h'
    subst h2
    intro r' hr'
    exact absurd hr' (List.not_mem_nil _)
  | cons game rest ih =>
    intro n gOps rows' log h hnod hinj hfresh
    have hnodR : (rowIds rest).Nodup := rowIds_nodup_tail game rest hnod
    simp only [game_pass] at h
    cases hpr : process_game_row existing_games gen game n with
    | error e =>
      cases e with
      | keyError k =>
        simp only [hpr] at h
        cases hrest : game_pass existing_games gen rest n with
        | error e2 => simp only [hrest] at h; exact Except.noConfusion h
        | ok res =>
          obtain ⟨ops2, rows2, log2⟩ := res
          simp only [hrest] at h
          injection h with h'
          simp only [Prod.mk.injEq] at h'
          obtain ⟨h1, h2, _⟩ := h'
          subst h1
          subst h2
          intro r' hr'
          obtain ⟨gid, hg1, hg2, hg3, hg4⟩ := ih n ops2 rows2 log2 hrest hnodR
            (fun i j hi1 hi2 hj1 hj2 he =>
              hinj i j hi1 (by simp only [List.length_cons]; omega) hj1
                (by simp only [List.length_cons]; omega) he)
            (fun i hi1 hi2 =>
              ⟨fun hmem => (hfresh i hi1 (by simp only [List.length_cons]; omega)).1
                 (rowIds_sublist game rest _ hmem),
               (hfresh i hi1 (by simp only [List.length_cons]; omega)).2⟩)
            r' hr'
          refine ⟨gid, hg1, hg2, ?_, hg4⟩
          rcases hg3 with hc | ⟨i, hi1, hi2, hi3⟩
          · exact Or.inl (rowIds_sublist game rest gid hc)
          · exact Or.inr ⟨i, hi1, by simp only [List.length_cons]; omega, hi3⟩
      | valueError => simp only [hpr] at h; exact Except.noConfusion h
    | ok res =>
      obtain ⟨ops1, row1, log1, n1⟩ := res
      simp only [hpr] at h
      cases hrest : game_pass existing_games gen rest n1 with
      | error e2 => simp only [hrest] at h; exact Except.noConfusion h
      | ok res2 =>
        obtain ⟨ops2, rows2, log2⟩ := res2
        simp only [hrest] at h
        injection h with h'
        simp only [Prod.mk.injEq] at h'
        obtain ⟨h1, h2, _⟩ := h'
        subst h1
        subst h2
        rcases process_game_row_cases existing_games gen game n ops1 row1 log1 n1
          hpr with
          ⟨lvl, gm, gd, hf, hlvl, hgm, hb, hops1, hrow1, hn1⟩ |
          ⟨gid0, hid0, hne0, hrow1, hn1, hrest0⟩
        · -- create branch
          subst hn1
          subst hrow1
          subst hops1
          have hT := game_pass_targets existing_games gen rest (n + 1) ops2 rows2
            log2 hrest
          have hgenn := hfresh n (Nat.le_refl n)
            (by simp only [List.length_cons]; omega)
          have hops2none : gameWritesFor (gen n) ops2 = [] := by
            apply gameWritesFor_eq_nil
            intro op hop he
            rcases hT op hop (gen n) he with hc | ⟨i, hi1, hi2, hi3⟩
            · exact hgenn.1 (rowIds_sublist game rest _ hc)
            · have := hinj n i (Nat.le_refl n)
                (by simp only [List.length_cons]; omega) (by omega)
                (by simp only [List.length_cons]; omega) hi3
              omega
          intro r' hr'
          rcases List.mem_cons.mp hr' with hx | hx
          · subst hx
            refine ⟨gen n, Row.get?_set_self game "id" (gen n), hgenn.2,
              Or.inr ⟨n, Nat.le_refl n, by simp only [List.length_cons]; omega, rfl⟩, ?_⟩
            refine Or.inl ⟨lvl, gm, gd,
              Row.item_set_ne game "id" "levelId" (gen n) (by decide) ▸ hlvl,
              Row.item_set_ne game "id" "gameModeId" (gen n) (by decide) ▸ hgm,
              (build_game_data_set_id game (gen n) gm lvl) ▸ hb, ?_⟩
            refine Or.inl ?_
            rw [gameWritesFor_append, hops2none, List.append_nil,
              gameWritesFor_cons, if_pos (by simp [gameWriteTarget?]),
              gameWritesFor_cons, if_neg (by simp [gameWriteTarget?])]
            rfl
          · obtain ⟨gid, hg1, hg2, hg3, hg4⟩ := ih (n + 1) ops2 rows2 log2 hrest
              hnodR
              (fun i j hi1 hi2 hj1 hj2 he =>
                hinj i j (by omega) (by simp only [List.length_cons]; omega)
                  (by omega) (by simp only [List.length_cons]; omega) he)
              (fun i hi1 hi2 =>
                ⟨fun hmem => (hfresh i (by omega)
                    (by simp only [List.length_cons]; omega)).1
                   (rowIds_sublist game rest _ hmem),
                 (hfresh i (by omega) (by simp only [List.length_cons]; omega)).2⟩)
              r' hx
            have hgidne : gen n ≠ gid := by
              intro he
              rcases hg3 with hc | ⟨i, hi1, hi2, hi3⟩
              · exact hgenn.1 (rowIds_sublist game rest _ (he ▸ hc))
              · have := hinj n i (Nat.le_refl n)
                  (by simp only [List.length_cons]; omega) (by omega)
                  (by simp only [List.length_cons]; omega) (he.trans hi3)
                omega
            refine ⟨gid, hg1, hg2, ?_, ?_⟩
            · rcases hg3 with hc | ⟨i, hi1, hi2, hi3⟩
              · exact Or.inl (rowIds_sublist game rest gid hc)
              · exact Or.inr ⟨i, by omega, by simp only [List.length_cons]; omega, hi3⟩
            · refine RowSettledAt_congr existing_games _ ops2 gid r' ?_ hg4
              rw [gameWritesFor_append, gameWritesFor_cons,
                if_neg (by simp [gameWriteTarget?]; exact hgidne),
                gameWritesFor_cons, if_neg (by simp [gameWriteTarget?])]
              rfl
        · -- id-present branch
          rw [hn1] at hrest
          subst hrow1
          have hconsids : rowIds (row1 :: rest) = gid0 :: rowIds rest := by
            simp only [rowIds_cons, hid0]
            rw [if_neg hne0]
          have hgid0notrest : gid0 ∉ rowIds rest := by
            rw [hconsids] at hnod
            exact (List.nodup_cons.mp hnod).1
          have hT := game_pass_targets existing_games gen rest n ops2 rows2
            log2 hrest
          have hops2none : gameWritesFor gid0 ops2 = [] := by
            apply gameWritesFor_eq_nil
            intro op hop he
            rcases hT op hop gid0 he with hc | ⟨i, hi1, hi2, hi3⟩
            · exact hgid0notrest hc
            · exact (hfresh i hi1 (by simp only [List.length_cons]; omega)).1
                (hi3 ▸ hconsids ▸ List.mem_cons_self gid0 (rowIds rest))
          intro r' hr'
          rcases List.mem_cons.mp hr' with hx | hx
          · subst hx
            refine ⟨gid0, hid0, hne0,
              Or.inl (hconsids ▸ List.mem_cons_self gid0 (rowIds rest)), ?_⟩
            rcases hrest0 with ⟨lvl, gm, gd, eg, hlvl, hgm, hlk, heg, hb,
              ⟨hch, hops1⟩ | ⟨hch, hops1⟩⟩ | ⟨hops1, hlku⟩
            · subst hops1
              refine Or.inl ⟨lvl, gm, gd, hlvl, hgm, hb, Or.inr (Or.inl ?_)⟩
              rw [gameWritesFor_append, hops2none, List.append_nil,
                gameWritesFor_cons, if_pos (by simp [gameWriteTarget?])]
              rfl
            · subst hops1
              refine Or.inl ⟨lvl, gm, gd, hlvl, hgm, hb, Or.inr (Or.inr
                ⟨?_, eg, hlk, heg, hch⟩)⟩
              rw [gameWritesFor_append, hops2none, List.append_nil]
              rfl
            · subst hops1
              refine Or.inr ⟨?_, ?_⟩
              · rw [gameWritesFor_append, hops2none, List.append_nil]
                rfl
              · rcases hlku with hc | hc
                · exact Or.inl hc
                · exact Or.inr hc
          · obtain ⟨gid, hg1, hg2, hg3, hg4⟩ := ih n ops2 rows2 log2 hrest hnodR
              (fun i j hi1 hi2 hj1 hj2 he =>
                hinj i j hi1 (by simp only [List.length_cons]; omega) hj1
                  (by simp only [List.length_cons]; omega) he)
              (fun i hi1 hi2 =>
                ⟨fun hmem => (hfresh i hi1 (by simp only [List.length_cons]; omega)).1
                   (rowIds_sublist row1 rest _ hmem),
                 (hfresh i hi1 (by simp only [List.length_cons]; omega)).2⟩)
              r' hx
            have hgidne : gid0 ≠ gid := by
              intro he
              rcases hg3 with hc | ⟨i, hi1, hi2, hi3⟩
              · exact hgid0notrest (he ▸ hc)
              · exact (hfresh i hi1 (by simp only [List.length_cons]; omega)).1
                  ((he.trans hi3) ▸ hconsids ▸ List.mem_cons_self gid0 (rowIds rest))
            refine ⟨gid, hg1, hg2, ?_, ?_⟩
            · rcases hg3 with hc | ⟨i, hi1, hi2, hi3⟩
              · exact Or.inl (rowIds_sublist row1 rest gid hc)
              · exact Or.inr ⟨i, hi1, by simp only [List.length_cons]; omega, hi3⟩
            · refine RowSettledAt_congr existing_games _ ops2 gid r' ?_ hg4
              rcases hrest0 with ⟨lvl, gm, gd, eg, hlvl, hgm, hlk, heg, hb,
                ⟨hch, hops1⟩ | ⟨hch, hops1⟩⟩ | ⟨hops1, hlku⟩
              · subst hops1
                rw [gameWritesFor_append, gameWritesFor_cons,
                  if_neg (by simp [gameWriteTarget?]; exact hgidne)]
                rfl
              · subst hops1
                rfl
              · subst hops1
                rfl


theorem Row.item_error (r : Row) (k : String) (e : PyErr)
    (h : Row.item r k = Except.error e) : e = PyErr.keyError k := by
  simp only [Row.item] at h
  cases hx : lookupA r k with
  | some v => rw [hx] at h; exact Except.noConfusion h
  | none =>
    rw [hx] at h
    injection h with h
    exact h.symm

theorem process_game_row_stable (existing_games : List (String × Doc))
    (gen : Nat → String) (r : Row) (n : Nat)
    (h : RowStable existing_games r) :
    (∃ k, process_game_row existing_games gen r n =
       Except.error (PyErr.keyError k)) ∨
    (∃ log, process_game_row existing_games gen r n =
       Except.ok ([], r, log, n)) := by
  obtain ⟨gid, hid, hne, hcase⟩ := h
  have hfalsy : pyFalsy (r.get? "id") = false := by
    rw [hid]
    simp [pyFalsy, hne, exPure]
  cases hlvl : Row.item r "levelId" with
  | error e =>
    refine Or.inl ⟨"levelId", ?_⟩
    have he := Row.item_error r "levelId" e hlvl
    subst he
    simp only [process_game_row, hlvl, exBindErr]
  | ok lvl =>
  cases hgm : Row.item r "gameModeId" with
  | error e =>
    refine Or.inl ⟨"gameModeId", ?_⟩
    have he := Row.item_error r "gameModeId" e hgm
    subst he
    simp only [process_game_row, hlvl, hgm, exBindOk, exBindErr]
  | ok gm =>
  rcases hcase with hnone | hempty | ⟨eg, lvl', gm', gd, hlk, hegne, hlvl', hgm', hb, hch⟩
  · refine Or.inr ⟨["Game ID " ++ gid ++ " not found in Firestore. Skipping."], ?_⟩
    simp only [process_game_row, hlvl, hgm, exBindOk, hid, Option.getD_some, hnone]
    simp [pyFalsy, hne, exPure]
  · refine Or.inr ⟨["Game ID " ++ gid ++ " not found in Firestore. Skipping."], ?_⟩
    simp only [process_game_row, hlvl, hgm, exBindOk, hid, Option.getD_some, hempty]
    simp [pyFalsy, hne, exPure]
  · have hlvl2 : lvl' = lvl := by
      rw [hlvl] at hlvl'
      injection hlvl' with he
      exact he.symm
    have hgm2 : gm' = gm := by
      rw [hgm] at hgm'
      injection hgm' with he
      exact he.symm
    subst hlvl2
    subst hgm2
    refine Or.inr ⟨["No changes detected for game: " ++ gid], ?_⟩
    simp only [process_game_row, hlvl, hgm, exBindOk, hid, Option.getD_some,
      hlk, hb, hch]
    simp [pyFalsy, hne, hegne, hch, exPure]

theorem game_pass_stable_no_ops (existing_games : List (String × Doc))
    (gen : Nat → String) :
    ∀ (rows : List Row) (n : Nat),
    (∀ r ∈ rows, RowStable existing_games r) →
    ∃ rows' log, game_pass existing_games gen rows n =
      Except.ok ([], rows', log) := by
  intro rows
  induction rows with
  | nil =>
    intro n _
    exact ⟨[], [], rfl⟩
  | cons r rest ih =>
    intro n hstab
    obtain ⟨rows', log, hrest⟩ := ih n (fun x hx => hstab x (List.mem_cons_of_mem r hx))
    rcases process_game_row_stable existing_games gen r n
      (hstab r (List.mem_cons_self r rest)) with ⟨k, hk⟩ | ⟨lg, hok⟩
    · refine ⟨rows', ("Missing required field " ++ k ++ " in row. Skipping.") :: log, ?_⟩
      simp only [game_pass, hk, hrest]
    · refine ⟨r :: rows', lg ++ log, ?_⟩
      simp only [game_pass, hok, hrest, List.nil_append]


theorem settled_commit_stable (db db2 : Store) (t : Nat) (ops1 : List BatchOp)
    (gid : String) (r : Row)
    (hcommit : commit t db ops1 = some db2)
    (hs : RowSettledAt db.games ops1 gid r)
    (hid : Row.get? r "id" = some gid) (hne : gid ≠ "") :
    RowStable db2.games r := by
  rcases hs with ⟨lvl, gm, gd, hlvl, hgm, hb, hw⟩ | ⟨hw, hlk⟩
  · rcases hw with hset | hupd | ⟨hnil, eg, hlk, hegne, hch⟩
    · have h2 := commit_games_set t ops1 db db2 gid _ hcommit hset
      rw [resolveDoc_append, resolveDoc_build t r gm lvl gd hb] at h2
      have hts : resolveDoc t
          [("createdAt", Value.serverTimestamp), ("updatedAt", Value.serverTimestamp)] =
          [("createdAt", Value.timestamp t), ("updatedAt", Value.timestamp t)] := rfl
      rw [hts] at h2
      refine ⟨gid, hid, hne, Or.inr (Or.inr ⟨_, lvl, gm, gd, h2, ?_, hlvl, hgm, hb,
        has_game_changed_append_false r gm lvl gd _ hb⟩)⟩
      intro he
      exact build_ne_nil r gm lvl gd hb (List.append_eq_nil.mp he).1
    · obtain ⟨old, hold, h2⟩ := commit_games_update t ops1 db db2 gid _ hcommit hupd
      rw [resolveDoc_append, resolveDoc_build t r gm lvl gd hb] at h2
      have hts : resolveDoc t [("updatedAt", Value.serverTimestamp)] =
          [("updatedAt", Value.timestamp t)] := rfl
      rw [hts] at h2
      exact ⟨gid, hid, hne, Or.inr (Or.inr ⟨_, lvl, gm, gd, h2,
        merge_build_ne_nil r gm lvl gd old _ hb, hlvl, hgm, hb,
        has_game_changed_merge_false r gm lvl gd old _ hb⟩)⟩
    · have h2 := commit_games_untargeted t ops1 db db2 gid hcommit hnil
      exact ⟨gid, hid, hne, Or.inr (Or.inr ⟨eg, lvl, gm, gd, h2.trans hlk, hegne,
        hlvl, hgm, hb, hch⟩)⟩
  · have h2 := commit_games_untargeted t ops1 db db2 gid hcommit hw
    rcases hlk with hc | hc
    · exact ⟨gid, hid, hne, Or.inl (h2.trans hc)⟩
    · exact ⟨gid, hid, hne, Or.inr (Or.inl (h2.trans hc))⟩

/-! ## Claims -/

/-- C1 counterexample: a game row whose id is present and found in the
existing-store snapshot, where the stored document is the empty dict.
Tracked fields differ (`instructions` reads `None` from the stored document
and `"i"` from the rebuilt data), so the claim demands an update, but the
source's `if existing_game:` truthiness test treats the empty dict as not
found and the row is skipped with no write added to the batch. -/
theorem C1_cex_found_empty_doc_not_updated :
    lookupA [("g1", ([] : Doc))] "g1" = some [] ∧
    (build_game_data exRowG1 "gm1" "lvl1").map (has_game_changed []) =
      Except.ok true ∧
    process_game_row [("g1", ([] : Doc))] exGen exRowG1 0 =
      Except.ok ([], exRowG1,
        ["Game ID g1 not found in Firestore. Skipping."], 0) := by
  decide

/-- C1 (amended): for a game row whose id is present and found in the
snapshot with a NON-EMPTY stored document, an update (refreshing the
`updatedAt` timestamp) is batched if and only if some field of the fixed
key list differs between the stored document and the rebuilt data; when no
listed field differs, no write for the row is added. -/
theorem C1_update_iff_tracked_field_diff (existing_games : List (String × Doc))
    (gen : Nat → String) (game : Row) (n : Nat) (gid lvl gm : String) (egd gd : Doc)
    (hid : game.get? "id" = some gid) (hne : gid ≠ "")
    (hlvl : game.item "levelId" = Except.ok lvl)
    (hgm : game.item "gameModeId" = Except.ok gm)
    (hfound : lookupA existing_games gid = some egd) (hnonempty : egd ≠ [])
    (hbuild : build_game_data game gm lvl = Except.ok gd) :
    process_game_row existing_games gen game n =
      Except.ok
        (if has_game_changed egd gd then
           ([BatchOp.updateGame gid (gd ++ [("updatedAt", Value.serverTimestamp)])],
            game, ["Game updated: " ++ gid], n)
         else ([], game, ["No changes detected for game: " ++ gid], n)) :=
  process_game_row_found existing_games gen game n gid lvl gm egd gd
    hid hne hlvl hgm hfound hnonempty hbuild

/-- Witness for C1: on a concrete row whose stored `description` differs,
the update is batched with the rebuilt document and a fresh timestamp. -/
theorem C1_update_iff_tracked_field_diff_witness :
    process_game_row [("g1", exStoredG1)] exGen exRowG1 0 =
      Except.ok
        ([BatchOp.updateGame "g1"
            (exGdG1 ++ [("updatedAt", Value.serverTimestamp)])],
         exRowG1, ["Game updated: g1"], 0) := by
  have h := C1_update_iff_tracked_field_diff [("g1", exStoredG1)] exGen exRowG1 0
    "g1" "lvl1" "gm1" exStoredG1 exGdG1 (by decide) (by decide) (by decide)
    (by decide) (by decide) (by decide) (by decide)
  rw [h]
  decide

/-- C6: a game row whose id is present but absent from the existing-store
snapshot is skipped with a warning and contributes no batch write at all:
no document is created, updated, or deleted for that row. -/
theorem C6_absent_id_skipped_no_write (existing_games : List (String × Doc))
    (gen : Nat → String) (game : Row) (n : Nat) (gid lvl gm : String)
    (hid : game.get? "id" = some gid) (hne : gid ≠ "")
    (hlvl : game.item "levelId" = Except.ok lvl)
    (hgm : game.item "gameModeId" = Except.ok gm)
    (habsent : lookupA existing_games gid = Option.none) :
    process_game_row existing_games gen game n =
      Except.ok ([], game,
        ["Game ID " ++ gid ++ " not found in Firestore. Skipping."], n) :=
  process_game_row_not_found existing_games gen game n gid lvl gm
    hid hne hlvl hgm habsent

/-- Witness for C6: row `g1` against an empty snapshot. -/
theorem C6_absent_id_skipped_no_write_witness :
    process_game_row [] exGen exRowG1 0 =
      Except.ok ([], exRowG1,
        ["Game ID g1 not found in Firestore. Skipping."], 0) := by
  have h := C6_absent_id_skipped_no_write [] exGen exRowG1 0 "g1" "lvl1" "gm1"
    (by decide) (by decide) (by decide) (by decide) (by decide)
  exact h.trans (by decide)

/-- C5 counterexample: a full run on a games row whose id `g1` is not in
the (empty) games snapshot.  The claim says the row is silently dropped
from the rewritten CSV, but `updated_games_csv.append(game)` sits outside
the `if`/`else` (source line 132), so the row IS in the rows written back. -/
theorem C5_cex_not_found_row_still_written_back :
    upload_games_from_csv exStore [exRowG1] [exStructRow] exGen =
      RunResult.ok
        [BatchOp.updateGameMode "gm1"
           [("name", Value.str "Mode"), ("description", Value.str "d")],
         BatchOp.updateLevel "gm1" "lvl1"
           [("name", Value.str "L"), ("description", Value.str "ld"),
            ("sugTimeLimit", Value.intv 60)]]
        [exRowG1]
        ["Game ID g1 not found in Firestore. Skipping."] := by
  decide

/-- C5 (amended): a game row whose id is not found in the snapshot is
skipped with a printed message but RETAINED in the rewritten games CSV;
the rows that are dropped from the file are those raising a missing-field
`KeyError`. -/
theorem C5_not_found_row_retained_in_csv (existing_games : List (String × Doc))
    (gen : Nat → String) (game : Row) (rest : List Row) (n : Nat)
    (gid lvl gm : String) (ops : List BatchOp) (rows : List Row) (log : List String)
    (hid : game.get? "id" = some gid) (hne : gid ≠ "")
    (hlvl : game.item "levelId" = Except.ok lvl)
    (hgm : game.item "gameModeId" = Except.ok gm)
    (habsent : lookupA existing_games gid = Option.none)
    (hrest : game_pass existing_games gen rest n = Except.ok (ops, rows, log)) :
    game_pass existing_games gen (game :: rest) n =
      Except.ok (ops, game :: rows,
        ("Game ID " ++ gid ++ " not found in Firestore. Skipping.") :: log) := by
  simp only [game_pass,
    process_game_row_not_found existing_games gen game n gid lvl gm hid hne hlvl
      hgm habsent,
    hrest, List.nil_append, List.singleton_append]

/-- Witness for C5: the not-found row `g1` heads the rewritten CSV. -/
theorem C5_not_found_row_retained_in_csv_witness :
    game_pass [] exGen [exRowG1] 0 =
      Except.ok ([], [exRowG1],
        ["Game ID g1 not found in Firestore. Skipping."]) := by
  have h := C5_not_found_row_retained_in_csv [] exGen exRowG1 [] 0 "g1" "lvl1"
    "gm1" [] [] [] (by decide) (by decide) (by decide) (by decide) (by decide)
    (by decide)
  exact h.trans (by decide)

/-- C10: `name` is outside the diff key list, with two consequences.
(a) When some tracked field differs, the batched update overwrites the
whole rebuilt document — including the `name` field taken from the row.
(b) When no tracked field differs, no write happens at all, even if the
stored `name` differs from the row's: `name` alone is never synchronized. -/
theorem C10_name_outside_diff_key_list (existing_games : List (String × Doc))
    (gen : Nat → String) (game : Row) (n : Nat) (gid lvl gm nm : String)
    (egd gd : Doc)
    (hid : game.get? "id" = some gid) (hne : gid ≠ "")
    (hlvl : game.item "levelId" = Except.ok lvl)
    (hgm : game.item "gameModeId" = Except.ok gm)
    (hfound : lookupA existing_games gid = some egd)
    (hbuild : build_game_data game gm lvl = Except.ok gd)
    (hname : game.item "name" = Except.ok nm) :
    "name" ∉ keys_to_check ∧
    (has_game_changed egd gd = true → egd ≠ [] →
      process_game_row existing_games gen game n =
        Except.ok
          ([BatchOp.updateGame gid (gd ++ [("updatedAt", Value.serverTimestamp)])],
           game, ["Game updated: " ++ gid], n) ∧
      gd.get "name" = Value.str nm) ∧
    (has_game_changed egd gd = false →
      process_game_row existing_games gen game n =
        Except.ok ([], game, ["No changes detected for game: " ++ gid], n)) := by
  obtain ⟨nm', ins, tl, ab, hn', hi', _, _, hgd⟩ :=
    build_game_data_shape game gm lvl gd hbuild
  have hnm : nm' = nm := by
    rw [hname] at hn'
    injection hn' with h'
    exact h'.symm
  subst hnm
  refine ⟨by decide, ?_, ?_⟩
  · intro htrue hnonempty
    rw [process_game_row_found existing_games gen game n gid lvl gm egd gd
      hid hne hlvl hgm hfound hnonempty hbuild, if_pos (by simp [htrue])]
    refine ⟨rfl, ?_⟩
    rw [hgd]
    simp [Doc.get, lookupA]
  · intro hfalse
    have hkeys := (has_game_changed_eq_false_iff egd gd).mp hfalse
    have hins : egd.get "instructions" = gd.get "instructions" :=
      hkeys "instructions" (by decide)
    have hnonempty : egd ≠ [] := by
      intro he
      subst he
      rw [Doc.get_nil, hgd] at hins
      simp [Doc.get, lookupA] at hins
    rw [process_game_row_found existing_games gen game n gid lvl gm egd gd
      hid hne hlvl hgm hfound hnonempty hbuild, if_neg (by simp [hfalse])]

/-- Witness for C10: with the stored document differing only in
`description`, the batched update document carries the row's `name`. -/
theorem C10_name_outside_diff_key_list_witness :
    "name" ∉ keys_to_check ∧
    process_game_row [("g1", exStoredG1)] exGen exRowG1 0 =
      Except.ok
        ([BatchOp.updateGame "g1"
            (exGdG1 ++ [("updatedAt", Value.serverTimestamp)])],
         exRowG1, ["Game updated: g1"], 0) ∧
    exGdG1.get "name" = Value.str "G" := by
  have h := C10_name_outside_diff_key_list [("g1", exStoredG1)] exGen exRowG1 0
    "g1" "lvl1" "gm1" "G" exStoredG1 exGdG1 (by decide) (by decide) (by decide)
    (by decide) (by decide) (by decide) (by decide)
  obtain ⟨h1, h2, h3⟩ := h
  obtain ⟨h4, h5⟩ := h2 (by decide) (by decide)
  exact ⟨h1, h4.trans (by decide), h5⟩


/-- C9: the spec's worked example. The row with empty id produces a new
game whose `answerBank` is the list `["A", "a"]` and whose `timeLimit` is
the float `30.0` (`(30 : ℚ)` in this model), the new document's reference
lands in the `gameRefs` of level `lvl1` under gameMode `gm1` (after
commit that array holds exactly the new reference), and the row is
rewritten with the newly assigned id. -/
theorem C9_worked_example :
    upload_games_from_csv exStore [exRowC9] [exStructRow] exGen =
      RunResult.ok exOpsC9 [exRowC9.set "id" "newid0"]
        ["New game created and linked to level: newid0"] ∧
    exRowC9.set "id" "newid0" =
      [("id", "newid0"), ("name", "Find A"), ("instructions", "tap A"),
       ("timeLimit", "30"), ("gameModeId", "gm1"), ("levelId", "lvl1"),
       ("answerBank", "A,a")] ∧
    (exGameDoc.get "answerBank" = Value.strList ["A", "a"] ∧
     exGameDoc.get "timeLimit" = Value.num 30) ∧
    ((commit 5 exStore exOpsC9).map fun db2 =>
        (lookupA db2.levels ("gm1", "lvl1")).map fun d => d.get "gameRefs") =
      some (some (Value.refList ["newid0"])) := by
  decide

end Publisher

namespace Publisher

/-- C2: a game row with a falsy id (missing or empty).  (a) The row
contributes exactly two batch writes: one `set` of a fresh Game document
tagged with creation and update timestamps, and one set-union append of
that document's reference into the owning Level's `gameRefs`; the new id
is written back into the row.  (b) The union has set semantics: appending
a reference already present leaves the array unchanged, otherwise it is
appended once at the end.  (c) Re-running the row with the now-assigned
(non-empty) id can only produce an update of that same game or nothing:
never another `set` or another `gameRefs` append, so no duplicate entry
can arise. -/
theorem C2_new_game_created_and_linked_once (existing_games : List (String × Doc))
    (gen : Nat → String) (game : Row) (n : Nat) (lvl gm : String) (gd : Doc)
    (hfalsy : pyFalsy (game.get? "id") = true)
    (hlvl : game.item "levelId" = Except.ok lvl)
    (hgm : game.item "gameModeId" = Except.ok gm)
    (hbuild : build_game_data game gm lvl = Except.ok gd) :
    process_game_row existing_games gen game n =
      Except.ok
        ([BatchOp.setGame (gen n)
            (gd ++ [("createdAt", Value.serverTimestamp),
                    ("updatedAt", Value.serverTimestamp)]),
          BatchOp.unionGameRefs gm lvl [gen n]],
         game.set "id" (gen n),
         ["New game created and linked to level: " ++ gen n], n + 1) ∧
    (∀ old : List String,
      (gen n ∈ old → arrayUnion old [gen n] = old) ∧
      (gen n ∉ old → arrayUnion old [gen n] = old ++ [gen n])) ∧
    (∀ (existing2 : List (String × Doc)) (n2 : Nat) (ops : List BatchOp)
        (row' : Row) (log : List String) (n' : Nat),
      gen n ≠ "" →
      process_game_row existing2 gen (game.set "id" (gen n)) n2 =
        Except.ok (ops, row', log, n') →
      ops = [] ∨ ∃ d, ops = [BatchOp.updateGame (gen n) d]) := by
  refine ⟨process_game_row_create existing_games gen game n lvl gm gd
    hfalsy hlvl hgm hbuild, ?_, ?_⟩
  · intro old
    exact ⟨arrayUnion_single_mem old (gen n), arrayUnion_single_not_mem old (gen n)⟩
  · intro existing2 n2 ops row' log n' hgen h
    exact (process_game_row_id_present_ops existing2 gen (game.set "id" (gen n)) n2
      (gen n) (Row.get?_set_self game "id" (gen n)) hgen ops row' log n' h).1

/-- Witness for C2: the worked-example row, processed, then re-processed
with the assigned id against a snapshot containing the new document. -/
theorem C2_new_game_created_and_linked_once_witness :
    process_game_row [] exGen exRowC9 0 =
      Except.ok
        ([BatchOp.setGame "newid0"
            (exGameDoc ++
              [("createdAt", Value.serverTimestamp),
               ("updatedAt", Value.serverTimestamp)]),
          BatchOp.unionGameRefs "gm1" "lvl1" ["newid0"]],
         exRowC9.set "id" "newid0",
         ["New game created and linked to level: newid0"], 1) ∧
    arrayUnion ["newid0"] ["newid0"] = ["newid0"] ∧
    arrayUnion [] ["newid0"] = ["newid0"] := by
  have h := C2_new_game_created_and_linked_once [] exGen exRowC9 0 "lvl1" "gm1"
    exGameDoc (by decide) (by decide) (by decide) (by decide)
  refine ⟨h.1.trans (by decide), ?_, ?_⟩
  · exact (h.2.1 ["newid0"]).1 (by decide)
  · exact ((h.2.1 []).2 (by decide)).trans (by decide)

end Publisher

namespace Publisher

/-- C8: a structure row whose Level already exists produces a level
`update` carrying exactly name, description and sugTimeLimit — no
`gameRefs` field — so merging it into any stored level document
overwrites those three fields and leaves `gameRefs` unchanged; in
particular a rerun changing only `levelSuggestedTimeLimit` refreshes
`sugTimeLimit` and leaves `gameRefs` untouched. -/
theorem C8_existing_level_overwrite_keeps_gameRefs (db : Store) (structure_row : Row)
    (gm lvl nm dsc lnm ldsc sug : String)
    (hgm : structure_row.item "id" = Except.ok gm)
    (hlvl : structure_row.item "levelId" = Except.ok lvl)
    (hnm : structure_row.item "name" = Except.ok nm)
    (hdsc : structure_row.item "description" = Except.ok dsc)
    (hlnm : structure_row.item "levelName" = Except.ok lnm)
    (hldsc : structure_row.item "levelDescription" = Except.ok ldsc)
    (hsug : structure_row.item "levelSuggestedTimeLimit" = Except.ok sug)
    (hexists : (lookupA db.levels (gm, lvl)).isSome = true) :
    process_structure_row db structure_row =
      Except.ok
        ((if (lookupA db.gameModes gm).isSome then
            [BatchOp.updateGameMode gm
              [("name", Value.str nm), ("description", Value.str dsc)]]
          else
            [BatchOp.setGameMode gm
              [("name", Value.str nm), ("description", Value.str dsc)]]) ++
         [BatchOp.updateLevel gm lvl (level_data_of lnm ldsc sug)],
         (if (lookupA db.gameModes gm).isSome then []
          else ["Creating gameMode: " ++ gm]) ++ []) ∧
    lookupA (level_data_of lnm ldsc sug) "gameRefs" = Option.none ∧
    (∀ (t : Nat) (old : Doc),
      (mergeDoc old (resolveDoc t (level_data_of lnm ldsc sug))).get "gameRefs" =
        old.get "gameRefs" ∧
      (mergeDoc old (resolveDoc t (level_data_of lnm ldsc sug))).get "sugTimeLimit" =
        (if pyIsDigit sug then Value.intv (pyInt sug) else Value.none) ∧
      (mergeDoc old (resolveDoc t (level_data_of lnm ldsc sug))).get "name" =
        Value.str lnm ∧
      (mergeDoc old (resolveDoc t (level_data_of lnm ldsc sug))).get "description" =
        Value.str ldsc) := by
  refine ⟨?_, ?_, ?_⟩
  · simp only [process_structure_row, hgm, hlvl, hnm, hdsc, hlnm, hldsc, hsug,
      exBindOk, exPure, hexists, if_true, level_data_of]
    split <;> rfl
  · by_cases hd : pyIsDigit sug <;> simp [level_data_of, lookupA, hd]
  · intro t old
    have hres : resolveDoc t (level_data_of lnm ldsc sug) = level_data_of lnm ldsc sug := by
      by_cases hd : pyIsDigit sug <;>
        simp [level_data_of, resolveDoc, resolveTS, hd]
    rw [hres]
    simp only [mergeDoc, level_data_of, List.foldl, Doc.get, lookupA_setA]
    refine ⟨by simp, by simp, by simp, by simp⟩


/-- Witness for C8: the example structure row against `exStore`, whose
level `lvl1` exists; the merged update keeps `gameRefs` as the stored
empty array while `sugTimeLimit` becomes `60`. -/
theorem C8_existing_level_overwrite_keeps_gameRefs_witness :
    process_structure_row exStore exStructRow =
      Except.ok
        ([BatchOp.updateGameMode "gm1"
            [("name", Value.str "Mode"), ("description", Value.str "d")],
          BatchOp.updateLevel "gm1" "lvl1" (level_data_of "L" "ld" "60")], []) ∧
    (mergeDoc exLvlDoc (resolveDoc 5 (level_data_of "L" "ld" "60"))).get "gameRefs" =
      Value.refList [] ∧
    (mergeDoc exLvlDoc (resolveDoc 5 (level_data_of "L" "ld" "60"))).get "sugTimeLimit" =
      Value.intv 60 := by
  have h := C8_existing_level_overwrite_keeps_gameRefs exStore exStructRow
    "gm1" "lvl1" "Mode" "d" "L" "ld" "60" (by decide) (by decide) (by decide)
    (by decide) (by decide) (by decide) (by decide) (by decide)
  refine ⟨h.1.trans (by decide), ?_, ?_⟩
  · exact ((h.2.2 5 exLvlDoc).1).trans (by decide)
  · exact ((h.2.2 5 exLvlDoc).2.1).trans (by decide)

end Publisher

namespace Publisher

/-- A structure row missing the required `name` column. -/
def exBadStructRow : Row := [("id", "gm1"), ("levelId", "lvl1")]

/-- A game row (no id) missing the required `name` column. -/
def exRowNoName : Row :=
  [("id", ""), ("levelId", "lvl1"), ("gameModeId", "gm1")]

/-- C4 counterexample: the structure loop (source lines 60–88) is not
wrapped in `try`/`except`, so a structure row missing a required field
raises `KeyError` and ABORTS the whole run — the later well-formed
structure row and the game row are never processed and no batch is built —
contradicting the claim that any row missing a field is skipped and
processing continues. -/
theorem C4_cex_structure_row_missing_field_aborts :
    upload_games_from_csv exStore [exRowC9] [exBadStructRow, exStructRow] exGen =
      RunResult.failed (PyErr.keyError "name") := by
  decide

/-- C4 (amended): a GAME row raising a missing-field `KeyError` is skipped
with a logged warning and the game loop continues with the remaining rows;
but a STRUCTURE row raising any error aborts the structure pass (and hence
the run) instead of being skipped. -/
theorem C4_game_rows_skip_structure_rows_abort (existing_games : List (String × Doc)) (gen : Nat → String)
    (game : Row) (rest : List Row) (n : Nat) (k : String)
    (ops : List BatchOp) (rows : List Row) (log : List String)
    (db : Store) (srow : Row) (srest : List Row) (e : PyErr)
    (hbadgame : process_game_row existing_games gen game n =
      Except.error (PyErr.keyError k))
    (hrest : game_pass existing_games gen rest n = Except.ok (ops, rows, log))
    (hbadstruct : process_structure_row db srow = Except.error e) :
    game_pass existing_games gen (game :: rest) n =
      Except.ok (ops, rows,
        ("Missing required field " ++ k ++ " in row. Skipping.") :: log) ∧
    structure_pass db (srow :: srest) = Except.error e := by
  constructor
  · simp only [game_pass, hbadgame, hrest]
  · simp only [structure_pass, hbadstruct, exBindErr]

/-- Witness for C4: a game row missing `name` is skipped with the warning
while the pass completes; a structure row missing `name` aborts. -/
theorem C4_game_rows_skip_structure_rows_abort_witness :
    game_pass [] exGen [exRowNoName] 0 =
      Except.ok ([], [], ["Missing required field name in row. Skipping."]) ∧
    structure_pass exStore [exBadStructRow] =
      Except.error (PyErr.keyError "name") := by
  have h := C4_game_rows_skip_structure_rows_abort [] exGen exRowNoName [] 0 "name" [] [] [] exStore
    exBadStructRow [] (PyErr.keyError "name") (by decide) (by decide) (by decide)
  exact ⟨h.1.trans (by decide), h.2⟩

end Publisher

namespace Publisher

/-- C7 counterexample: `exStoreC7` satisfies the reference invariant; a run
whose games row moves `g1` to parent `lvl2` commits an update of the
game's `levelId` but touches no `gameRefs` array, so afterwards `g1`
declares `lvl2` while `lvl2` holds no reference and `lvl1` holds a stale
one — the invariant is broken by an ordinary update operation. -/
theorem C7_cex_levelId_update_breaks_invariant :
    levelRefsInv exStoreC7 = true ∧
    (runCommit exStoreC7 [exRowMoveG1] [exStructRow] exGen 5).map levelRefsInv =
      some false ∧
    ((runCommit exStoreC7 [exRowMoveG1] [exStructRow] exGen 5).map fun s =>
        ((lookupA s.games "g1").map fun d => d.get "levelId",
         (lookupA s.levels ("gm1", "lvl2")).map levelGameRefs,
         (lookupA s.levels ("gm1", "lvl1")).map levelGameRefs)) =
      some (some (Value.str "lvl2"), some [], some ["g1"]) := by
  decide

/-- C7 (amended): within any single run, references are appended to
`gameRefs` only at game creation: every set-union op in the batch appends
exactly the one reference of a newly created game into the level that game
declares as its parent, and neither game updates nor level updates carry a
`gameRefs` field.  (The stored exactly-one-reference invariant itself is
not maintained: an update that changes a game's `levelId` moves no
reference, as the counterexample shows.) -/
theorem C7_gameRefs_appended_only_at_creation (db : Store)
    (games_csv structure_csv : List Row) (gen : Nat → String)
    (ops : List BatchOp) (rows : List Row) (log : List String)
    (h : upload_games_from_csv db games_csv structure_csv gen =
      RunResult.ok ops rows log) :
    (∀ gm lvl refs, BatchOp.unionGameRefs gm lvl refs ∈ ops →
      ∃ id gd, refs = [id] ∧
        BatchOp.setGame id
          (gd ++ [("createdAt", Value.serverTimestamp),
                  ("updatedAt", Value.serverTimestamp)]) ∈ ops ∧
        gd.get "gameModeId" = Value.str gm ∧ gd.get "levelId" = Value.str lvl) ∧
    (∀ gid d, BatchOp.updateGame gid d ∈ ops →
      lookupA d "gameRefs" = Option.none) ∧
    (∀ gm lvl d, BatchOp.updateLevel gm lvl d ∈ ops →
      lookupA d "gameRefs" = Option.none) := by
  by_cases hg : games_csv = []
  · simp [upload_games_from_csv, hg] at h
  by_cases hs : structure_csv = []
  · simp [upload_games_from_csv, hg, hs] at h
  simp only [upload_games_from_csv, if_neg hg, if_neg hs] at h
  cases hsp : structure_pass db structure_csv with
  | error e =>
    simp only [hsp] at h
    exact RunResult.noConfusion h
  | ok res =>
  obtain ⟨sOps, sLog⟩ := res
  simp only [hsp] at h
  cases hgp : game_pass (fetch_existing_games db) gen games_csv 0 with
  | error e =>
    simp only [hgp] at h
    exact RunResult.noConfusion h
  | ok res2 =>
  obtain ⟨gOps, gRows, gLog⟩ := res2
  simp only [hgp] at h
  injection h with hops hrows hlog
  subst hops
  obtain ⟨hu, hg2, hl2⟩ := game_pass_gameRefs_discipline
    (fetch_existing_games db) gen games_csv 0 gOps gRows gLog hgp
  have hstruct := structure_pass_ops_shape db structure_csv sOps sLog hsp
  refine ⟨?_, ?_, ?_⟩
  · intro gm lvl refs hmem
    rcases List.mem_append.mp hmem with hx | hx
    · exact absurd rfl ((hstruct _ hx).1 gm lvl refs)
    · obtain ⟨id, gd, hrefs, hset, hgm', hlvl'⟩ := hu gm lvl refs hx
      exact ⟨id, gd, hrefs, List.mem_append_right _ hset, hgm', hlvl'⟩
  · intro gid d hmem
    rcases List.mem_append.mp hmem with hx | hx
    · exact absurd rfl ((hstruct _ hx).2.2.1 gid d)
    · exact hg2 gid d hx
  · intro gm lvl d hmem
    rcases List.mem_append.mp hmem with hx | hx
    · exact (hstruct _ hx).2.2.2 gm lvl d rfl
    · exact absurd hx (hl2 gm lvl d).1

/-- Witness for C7: applied to the worked-example run, the single union
append carries exactly the new document's reference and that document
declares `gm1`/`lvl1` as its parent pair. -/
theorem C7_gameRefs_appended_only_at_creation_witness :
    ∃ id gd, (["newid0"] : List String) = [id] ∧
      BatchOp.setGame id
        (gd ++ [("createdAt", Value.serverTimestamp),
                ("updatedAt", Value.serverTimestamp)]) ∈ exOpsC9 ∧
      gd.get "gameModeId" = Value.str "gm1" ∧
      gd.get "levelId" = Value.str "lvl1" :=
  (C7_gameRefs_appended_only_at_creation exStore [exRowC9] [exStructRow] exGen
    exOpsC9 [exRowC9.set "id" "newid0"]
    ["New game created and linked to level: newid0"] (by decide)).1
    "gm1" "lvl1" ["newid0"] (by decide)

end Publisher

namespace Publisher

/-- C3 counterexample: two game rows sharing id `g1` with different
`description` values.  The first run diffs both rows against the same
pre-run snapshot (row A updates, row B reports no change, row A's write
wins at commit); the second run, on inputs unchanged since the first, now
finds row A's data stored, so row B differs and a game update IS batched —
the diff check is not idempotent when ids repeat. -/
theorem C3_cex_duplicate_ids_second_run_updates :
    upload_games_from_csv exStoreDup [exRowG1, exRowDupB] [exStructRow] exGen =
      RunResult.ok exOpsDup1 [exRowG1, exRowDupB]
        ["Game updated: g1", "No changes detected for game: g1"] ∧
    commit 5 exStoreDup exOpsDup1 = some exStoreDup2 ∧
    upload_games_from_csv exStoreDup2 [exRowG1, exRowDupB] [exStructRow] exGen =
      RunResult.ok exOpsDup2 [exRowG1, exRowDupB]
        ["No changes detected for game: g1", "Game updated: g1"] ∧
    BatchOp.updateGame "g1" (exStoredG1 ++ [("updatedAt", Value.serverTimestamp)])
      ∈ exOpsDup2 := by
  decide

/-- C3 (amended): if no two game rows share a non-empty id and the
generated ids are distinct, non-empty and fresh for the input, then a
second run on the inputs unchanged since the first (with the ids the
first run wrote back) adds no game write whatsoever to the batch: no game
document is set or updated and no `gameRefs` union is appended — the
second batch is structure-pass writes only. -/
theorem C3_second_run_zero_game_writes (db db2 : Store) (games_csv structure_csv : List Row)
    (gen gen2 : Nat → String) (t : Nat)
    (ops1 ops2 : List BatchOp) (rows1 rows2 : List Row) (log1 log2 : List String)
    (hrun1 : upload_games_from_csv db games_csv structure_csv gen =
      RunResult.ok ops1 rows1 log1)
    (hnodup : (rowIds games_csv).Nodup)
    (hinj : ∀ i, i < games_csv.length → ∀ j, j < games_csv.length →
      gen i = gen j → i = j)
    (hfresh : ∀ i, i < games_csv.length →
      gen i ∉ rowIds games_csv ∧ gen i ≠ "")
    (hcommit : commit t db ops1 = some db2)
    (hrun2 : upload_games_from_csv db2 rows1 structure_csv gen2 =
      RunResult.ok ops2 rows2 log2) :
    ∀ op ∈ ops2,
      (∀ id d, op ≠ BatchOp.setGame id d) ∧
      (∀ id d, op ≠ BatchOp.updateGame id d) ∧
      (∀ gm lvl refs, op ≠ BatchOp.unionGameRefs gm lvl refs) := by
  by_cases hg : games_csv = []
  · simp [upload_games_from_csv, hg] at hrun1
  by_cases hsn : structure_csv = []
  · simp [upload_games_from_csv, hg, hsn] at hrun1
  simp only [upload_games_from_csv, if_neg hg, if_neg hsn] at hrun1
  cases hsp1 : structure_pass db structure_csv with
  | error e => simp only [hsp1] at hrun1; exact RunResult.noConfusion hrun1
  | ok res =>
  obtain ⟨sOps1, sLog1⟩ := res
  simp only [hsp1] at hrun1
  cases hgp1 : game_pass (fetch_existing_games db) gen games_csv 0 with
  | error e => simp only [hgp1] at hrun1; exact RunResult.noConfusion hrun1
  | ok res2 =>
  obtain ⟨gOps1, gRows1, gLog1⟩ := res2
  simp only [hgp1] at hrun1
  injection hrun1 with hops1 hrows1 hlog1
  have hset := game_pass_settles (fetch_existing_games db) gen games_csv 0
    gOps1 gRows1 gLog1 hgp1 hnodup
    (fun i j _ hi _ hj he => hinj i (by omega) j (by omega) he)
    (fun i _ hi => hfresh i (by omega))
  have hstable : ∀ r ∈ rows1, RowStable db2.games r := by
    intro r hr
    rw [← hrows1] at hr
    obtain ⟨gid, h1, h2, _, h4⟩ := hset r hr
    have hsnone : gameWritesFor gid sOps1 = [] := by
      apply gameWritesFor_eq_nil
      intro op hop he
      rw [structure_pass_no_game_targets db structure_csv sOps1 sLog1 hsp1 op hop]
        at he
      exact Option.noConfusion he
    have hsettled : RowSettledAt (fetch_existing_games db) (sOps1 ++ gOps1) gid r :=
      RowSettledAt_congr _ _ gOps1 gid r
        (by rw [gameWritesFor_append, hsnone, List.nil_append]) h4
    have hcommit' : commit t db (sOps1 ++ gOps1) = some db2 := by
      rw [hops1]
      exact hcommit
    exact settled_commit_stable db db2 t (sOps1 ++ gOps1) gid r hcommit'
      hsettled h1 h2
  by_cases hr1 : rows1 = []
  · simp [upload_games_from_csv, hr1] at hrun2
  simp only [upload_games_from_csv, if_neg hr1, if_neg hsn] at hrun2
  cases hsp2 : structure_pass db2 structure_csv with
  | error e => simp only [hsp2] at hrun2; exact RunResult.noConfusion hrun2
  | ok res3 =>
  obtain ⟨sOps2, sLog2⟩ := res3
  simp only [hsp2] at hrun2
  obtain ⟨rowsF, logF, hgp2⟩ :=
    game_pass_stable_no_ops (fetch_existing_games db2) gen2 rows1 0 hstable
  simp only [hgp2] at hrun2
  injection hrun2 with hops2 _ _
  intro op hop
  rw [← hops2, List.append_nil] at hop
  have hs := structure_pass_ops_shape db2 structure_csv sOps2 sLog2 hsp2 op hop
  exact ⟨hs.2.1, hs.2.2.1, hs.1⟩

/-- Witness for C3: the worked-example run, committed at time 5, then
re-run on the rewritten row; no op of the second batch targets any game
document. -/
theorem C3_second_run_zero_game_writes_witness :
    exOpsRun2C9.all (fun op => decide (gameWriteTarget? op = Option.none)) = true := by
  have h := C3_second_run_zero_game_writes exStore exStoreC9After [exRowC9]
    [exStructRow] exGen exGen 5 exOpsC9 exOpsRun2C9 [exRowC9.set "id" "newid0"]
    [exRowC9.set "id" "newid0"]
    ["New game created and linked to level: newid0"]
    ["No changes detected for game: newid0"]
    (by decide) (by decide) (by decide) (by decide) (by decide) (by decide)
  rw [List.all_eq_true]
  intro op hop
  obtain ⟨h1, h2, h3⟩ := h op hop
  cases op with
  | setGame id d => exact absurd rfl (h1 id d)
  | updateGame id d => exact absurd rfl (h2 id d)
  | setGameMode id d => rfl
  | updateGameMode id d => rfl
  | setLevel gm lvl d => rfl
  | updateLevel gm lvl d => rfl
  | unionGameRefs gm lvl refs => rfl

end Publisher
